import Mathlib

/-!
go-dmg: the SM83 execution core and its interrupt controller.

A shallow embedding of `pkg/cpu/interrupts.go`, `pkg/cpu/process.go` and
`pkg/emulator/emulator.go`.  Bytes and 16-bit words are natural numbers; every
place where Go truncates (`byte(x)`, `uint16` arithmetic) is an explicit
`% 256` or `% 65536`.  A Go panic is the `error` side of `Except`; a handler
fault carries the CPU state at the panic.
-/

namespace GoDmg

/-! ## Data model -/

/-- The fatal conditions of the core: every one of them is a Go panic. -/
inductive Fault
  | operandShape
  | notImplemented
  | indexOutOfRange
  | unknownInstruction
  deriving DecidableEq

/-- Modelled from the spec: the register names of package `instructions`
(missing from the sources): the eight 8-bit registers, the four 16-bit pair
views and the two independent 16-bit registers SP and PC. -/
inductive Register
  | A | F | B | C | D | E | H | L
  | AF | BC | DE | HL
  | SP | PC
  deriving DecidableEq

/-- Modelled from the spec: the four jump conditions of package `instructions`
(missing from the sources): Z set, Z clear, C set, C clear. -/
inductive Condition
  | Z | NZ | C | NC
  deriving DecidableEq

/-- Modelled from the spec: the four flags held in the top nibble of F
(`FlagZ`, `FlagN`, `FlagH`, `FlagC` are used by `process.go`, their
declaration is missing from the sources). -/
inductive Flag
  | FlagZ | FlagN | FlagH | FlagC
  deriving DecidableEq

/-- Modelled from the spec: the register file (type `Registers`, missing from
the sources): eight bytes and two 16-bit words, no storage of their own for the
pair views. -/
structure Registers where
  A : Nat
  F : Nat
  B : Nat
  C : Nat
  D : Nat
  E : Nat
  H : Nat
  L : Nat
  SP : Nat
  PC : Nat
  deriving DecidableEq

/-- Modelled from the spec: the CPU (type `CPU`, missing from the sources; the
fields `Registers`, `IF`, `IE`, `IME` and `IsHalted` are the ones the sources
use).  The memory bus is a byte store indexed by 16-bit addresses. -/
structure CPU where
  Registers : Registers
  IF : Nat
  IE : Nat
  IME : Bool
  IsHalted : Bool
  Memory : Nat → Nat

/-- A state of the machine: every 8-bit register, IF and IE hold a byte, SP and
PC hold a 16-bit word. -/
def CPU.WF (c : CPU) : Prop :=
  c.Registers.A < 256 ∧ c.Registers.F < 256 ∧ c.Registers.B < 256 ∧
  c.Registers.C < 256 ∧ c.Registers.D < 256 ∧ c.Registers.E < 256 ∧
  c.Registers.H < 256 ∧ c.Registers.L < 256 ∧
  c.Registers.SP < 65536 ∧ c.Registers.PC < 65536 ∧
  c.IF < 256 ∧ c.IE < 256

instance CPU.decidableWF (c : CPU) : Decidable c.WF := by
  unfold CPU.WF
  infer_instance

/-! ## Memory bus and stack -/

/-- Modelled from the spec: `read8(addr) -> byte` of the memory interface
(`CPU.Read8`, missing from the sources). -/
def Read8 (c : CPU) (addr : Nat) : Nat :=
  c.Memory (addr % 65536) % 256

/-- Modelled from the spec: `write8(addr, byte)` of the memory interface
(`CPU.Write8`, missing from the sources). -/
def Write8 (c : CPU) (addr : Nat) (v : Nat) : CPU :=
  { c with Memory := fun a => if a = addr % 65536 then v % 256 else c.Memory a }

/-- Modelled from the spec: `read16` (`CPU.Read16`, missing from the sources),
two little-endian byte reads at `address` and `address+1`. -/
def Read16 (c : CPU) (addr : Nat) : Nat :=
  Read8 c addr + 256 * Read8 c (addr + 1)

/-- Modelled from the spec: `write16` (`CPU.Write16`, missing from the
sources), two little-endian byte writes at `address` and `address+1`. -/
def Write16 (c : CPU) (addr : Nat) (v : Nat) : CPU :=
  Write8 (Write8 c addr (v % 256)) (addr + 1) (v / 256 % 256)

/-- Modelled from the spec: `push16(value)` (`CPU.StackPush16`, missing from
the sources) decrements SP by 2, then writes the value at the new SP. -/
def StackPush16 (c : CPU) (v : Nat) : CPU :=
  let sp := (c.Registers.SP + 65536 - 2) % 65536
  Write16 { c with Registers := { c.Registers with SP := sp } } sp v

/-! ## Interrupts (`pkg/cpu/interrupts.go`) -/

/-- The five interrupt sources, `type Interrupt byte`. -/
inductive Interrupt
  | VBLANK | LCD_STAT | TIMER | SERIAL | JOYPAD
  deriving DecidableEq

/-- The byte value of each source (the `const` block). -/
def Interrupt.toByte : Interrupt → Nat
  | .VBLANK => 1
  | .LCD_STAT => 2
  | .TIMER => 4
  | .SERIAL => 8
  | .JOYPAD => 16

/-- The position in IF and IE of the bit of each source: VBlank is bit 0,
LCDStat bit 1, Timer bit 2, Serial bit 3, Joypad bit 4. -/
def Interrupt.bit : Interrupt → Nat
  | .VBLANK => 0
  | .LCD_STAT => 1
  | .TIMER => 2
  | .SERIAL => 3
  | .JOYPAD => 4

/-- The array `interrupts`, in priority order. -/
def interrupts : List Interrupt :=
  [.VBLANK, .LCD_STAT, .TIMER, .SERIAL, .JOYPAD]

/-- The map `interruptsToAddress`. -/
def interruptsToAddress : Interrupt → Nat
  | .VBLANK => 0x40
  | .LCD_STAT => 0x48
  | .TIMER => 0x50
  | .SERIAL => 0x58
  | .JOYPAD => 0x60

/-- The body of the `if` in `HandleInterrupts`: push PC, jump to the vector,
clear the flag (`c.IF &= ^itByte`), unhalt, clear IME. -/
def serviceInterrupt (c : CPU) (it : Interrupt) : CPU :=
  let c1 := StackPush16 c c.Registers.PC
  let c2 := { c1 with Registers := { c1.Registers with PC := interruptsToAddress it } }
  let c3 := { c2 with IF := c2.IF &&& (0xFF ^^^ it.toByte) }
  let c4 := { c3 with IsHalted := false }
  { c4 with IME := false }

/-- The `for i := range interrupts` loop of `HandleInterrupts`, over the
sources still to be visited. -/
def handleLoop (c : CPU) : List Interrupt → Option Interrupt × CPU
  | [] => (none, c)
  | it :: rest =>
    if c.IF &&& it.toByte ≠ 0 ∧ c.IE &&& it.toByte ≠ 0 then
      (some it, serviceInterrupt c it)
    else
      handleLoop c rest

/-- `func (c *CPU) HandleInterrupts() *Interrupt`. -/
def HandleInterrupts (c : CPU) : Option Interrupt × CPU :=
  handleLoop c interrupts

/-! ## Register file -/

/-- Modelled from the spec: `bits.Lo` (package `internal/bits`, missing from
the sources), the low byte of a 16-bit value. -/
def Lo (v : Nat) : Nat :=
  v % 256

/-- Modelled from the spec: `get(register) -> value` (`Registers.Get`, missing
from the sources); a pair view is recomposed from its two 8-bit halves. -/
def Registers.Get (r : Registers) : Register → Nat
  | .A => r.A
  | .F => r.F
  | .B => r.B
  | .C => r.C
  | .D => r.D
  | .E => r.E
  | .H => r.H
  | .L => r.L
  | .AF => r.A * 256 + r.F
  | .BC => r.B * 256 + r.C
  | .DE => r.D * 256 + r.E
  | .HL => r.H * 256 + r.L
  | .SP => r.SP
  | .PC => r.PC

/-- Modelled from the spec: `set(register, value)` (`Registers.Set`, missing
from the sources); the value is a `uint16`, an 8-bit register keeps its low
byte, a pair write is two 8-bit writes.  Bits 3 to 0 of F are always zero, so a
write to F (alone or as the low half of AF) keeps bits 7 to 4 only. -/
def Registers.Set (r : Registers) (reg : Register) (val : Nat) : Registers :=
  match reg with
  | .A => { r with A := val % 256 }
  | .F => { r with F := val % 256 &&& 0xF0 }
  | .B => { r with B := val % 256 }
  | .C => { r with C := val % 256 }
  | .D => { r with D := val % 256 }
  | .E => { r with E := val % 256 }
  | .H => { r with H := val % 256 }
  | .L => { r with L := val % 256 }
  | .AF => { r with A := val / 256 % 256, F := val % 256 &&& 0xF0 }
  | .BC => { r with B := val / 256 % 256, C := val % 256 }
  | .DE => { r with D := val / 256 % 256, E := val % 256 }
  | .HL => { r with H := val / 256 % 256, L := val % 256 }
  | .SP => { r with SP := val % 65536 }
  | .PC => { r with PC := val % 65536 }

/-- Modelled from the spec: `Registers.SetHL` (missing from the sources), the
pair write to HL. -/
def Registers.SetHL (r : Registers) (val : Nat) : Registers :=
  r.Set .HL val

/-- Modelled from the spec: the bit of each flag in F (bits 7 to 4 are Z, N, H,
C). -/
def Flag.mask : Flag → Nat
  | .FlagZ => 0x80
  | .FlagN => 0x40
  | .FlagH => 0x20
  | .FlagC => 0x10

/-- The position in F of the bit of each flag. -/
def Flag.bit : Flag → Nat
  | .FlagZ => 7
  | .FlagN => 6
  | .FlagH => 5
  | .FlagC => 4

/-- Modelled from the spec: `setFlag(flag)` (`Registers.SetFlag`, missing from
the sources); the low nibble of F is zero after any flag mutation. -/
def Registers.SetFlag (r : Registers) (f : Flag) : Registers :=
  { r with F := (r.F ||| f.mask) &&& 0xF0 }

/-- Modelled from the spec: `clearFlag(flag)` (`Registers.ClearFlag`, missing
from the sources); the low nibble of F is zero after any flag mutation. -/
def Registers.ClearFlag (r : Registers) (f : Flag) : Registers :=
  { r with F := (r.F &&& (0xFF ^^^ f.mask)) &&& 0xF0 }

/-- Modelled from the spec: `testFlag(flag) -> bool` (missing from the
sources). -/
def Registers.TestFlag (r : Registers) (f : Flag) : Bool :=
  r.F &&& f.mask != 0

/-- Modelled from the spec: `evaluateCondition(cond) -> bool`
(`Registers.IsCondition`, missing from the sources) for the four jump
conditions Z set, Z clear, C set, C clear. -/
def Registers.IsCondition (r : Registers) : Condition → Bool
  | .Z => r.TestFlag .FlagZ
  | .NZ => !r.TestFlag .FlagZ
  | .C => r.TestFlag .FlagC
  | .NC => !r.TestFlag .FlagC

/-! ## Instruction descriptors -/

/-- Modelled from the spec: the symbol of an operand (package `instructions`,
missing from the sources): a named register, an 8-bit or 16-bit immediate
literal already consumed from the instruction stream, a jump condition code, or
a memory address (with the address consumed from the instruction stream).  The
8-bit immediates are the data byte (`immediate8`) and the signed displacement of
the `HL ← SP + signed8` idiom (`signed8`, given by its byte). -/
inductive Symbol
  | register (r : Register)
  | immediate8 (v : Nat)
  | signed8 (v : Nat)
  | immediate16 (v : Nat)
  | condition (cd : Condition)
  | memoryAddress (a : Nat)
  deriving DecidableEq

/-- Modelled from the spec: an operand descriptor (`instructions.Operand`,
missing from the sources): symbol, dereference flag, bit-width (8 or 16) and
the increment and decrement tags. -/
structure Operand where
  Symbol : Symbol
  Deref : Bool
  Bits16 : Bool
  Inc : Bool
  Dec : Bool
  deriving DecidableEq

/-- Modelled from the spec: `Operand.IsData` (missing from the sources): the
operand is a memory-address operand (the destination test of LD reads
"memory/dereference operand" for `dst.IsData() || dst.Deref`). -/
def Operand.IsData (op : Operand) : Bool :=
  match op.Symbol with
  | .memoryAddress _ => true
  | _ => false

/-- Modelled from the spec: `Operand.IsRegister` (missing from the sources):
the symbol is a named register. -/
def Operand.IsRegister (op : Operand) : Bool :=
  match op.Symbol with
  | .register _ => true
  | _ => false

/-- Modelled from the spec: `Operand.Is16` (missing from the sources): the
declared bit-width of the operand is 16. -/
def Operand.Is16 (op : Operand) : Bool :=
  op.Bits16

/-- Modelled from the spec: the mnemonics (package `instructions`, missing from
the sources): the eight of the supported set, and `OTHER n` for each of the
remaining ones. -/
inductive Mnemonic
  | NOP | JP | DI | EI | XOR | LD | INC | DEC
  | OTHER (n : Nat)
  deriving DecidableEq

/-- Modelled from the spec: an instruction descriptor
(`instructions.Instruction`, missing from the sources): mnemonic, operands,
whether CB-prefixed, base cycle cost. -/
structure Instruction where
  Mnemonic : Mnemonic
  Operands : List Operand
  CBPrefixed : Bool
  Cycles : Nat
  deriving DecidableEq

/-! ## Operand resolver -/

/-- Modelled from the spec: the read of the memory bus that ends the resolution
of a memory operand (part of `Resolve`, missing from the sources), one byte or
a little-endian word at the declared bit-width of the operand. -/
def readOperand (c : CPU) (op : Operand) (addr : Nat) : Nat :=
  if op.Is16 then Read16 c addr else Read8 c addr

/-- Modelled from the spec: the 16-bit value of a signed 8-bit immediate given
by its byte: the bytes 0x00..0x7F stand for 0..127, the bytes 0x80..0xFF for
-128..-1, in two's complement on 16 bits, so that the `uint16` sum with SP is
the signed addition of the `HL ← SP + signed8` idiom. -/
def signExtend8 (b : Nat) : Nat :=
  if b % 256 < 128 then b % 256 else b % 256 + 0xFF00

/-- Modelled from the spec: `resolve(operand) -> value` (`Resolve`, missing
from the sources): a register symbol reads the register file, an immediate
symbol is the literal captured during decode (a signed 8-bit one as its 16-bit
two's complement value), and a memory-address symbol or an operand with Deref
set first computes the address (a register or an immediate) and then reads the
memory bus.  A condition code is no value: it is a symbol of the wrong kind. -/
def Resolve (c : CPU) (op : Operand) : Except Fault Nat :=
  match op.Symbol with
  | .register r =>
    if op.Deref then .ok (readOperand c op (c.Registers.Get r))
    else .ok (c.Registers.Get r)
  | .immediate8 v =>
    if op.Deref then .ok (readOperand c op (v % 256))
    else .ok (v % 256)
  | .signed8 v =>
    if op.Deref then .ok (readOperand c op (signExtend8 v))
    else .ok (signExtend8 v)
  | .immediate16 v =>
    if op.Deref then .ok (readOperand c op (v % 65536))
    else .ok (v % 65536)
  | .memoryAddress a => .ok (readOperand c op (a % 65536))
  | .condition _ => .error .operandShape

/-! ## Execution engine (`pkg/cpu/process.go`) -/

/-- `func (c *CPU) NOP(in) byte`. -/
def NOP (c : CPU) (_ins : Instruction) : Except (Fault × CPU) (Nat × CPU) :=
  .ok (4, c)

/-- `func (c *CPU) INC(in) byte`; `val+1` is `uint16` arithmetic. -/
def INC (c : CPU) (ins : Instruction) : Except (Fault × CPU) (Nat × CPU) :=
  match ins.Operands with
  | [] => .error (.indexOutOfRange, c)
  | op :: _ =>
    match op.Symbol with
    | .register reg =>
      let val := c.Registers.Get reg
      .ok (4, { c with Registers := c.Registers.Set reg ((val + 1) % 65536) })
    | _ => .error (.operandShape, c)

/-- `func (c *CPU) DEC(in) byte`; `val-1` is `uint16` arithmetic. -/
def DEC (c : CPU) (ins : Instruction) : Except (Fault × CPU) (Nat × CPU) :=
  match ins.Operands with
  | [] => .error (.indexOutOfRange, c)
  | op :: _ =>
    match op.Symbol with
    | .register reg =>
      let val := c.Registers.Get reg
      .ok (4, { c with Registers := c.Registers.Set reg ((val + 65535) % 65536) })
    | _ => .error (.operandShape, c)

/-- `func (c *CPU) JP(in) byte`. -/
def JP (c : CPU) (ins : Instruction) : Except (Fault × CPU) (Nat × CPU) :=
  match ins.Operands with
  | [] => .error (.indexOutOfRange, c)
  | [op0] =>
    match Resolve c op0 with
    | .ok v => .ok (4, { c with Registers := { c.Registers with PC := v } })
    | .error e => .error (e, c)
  | op0 :: op1 :: _ =>
    match op0.Symbol with
    | .condition cond =>
      if c.Registers.IsCondition cond then
        match Resolve c op1 with
        | .ok v => .ok (4, { c with Registers := { c.Registers with PC := v } })
        | .error e => .error (e, c)
      else
        .ok (4, c)
    | _ => .error (.operandShape, c)

/-- `func (c *CPU) DI(in) byte`. -/
def DI (c : CPU) (_ins : Instruction) : Except (Fault × CPU) (Nat × CPU) :=
  .ok (4, { c with IME := false })

/-- `func (c *CPU) EI(in) byte`. -/
def EI (c : CPU) (_ins : Instruction) : Except (Fault × CPU) (Nat × CPU) :=
  .ok (4, { c with IME := true })

/-- The part of `XOR` after the operand is resolved to `value`. -/
def xorValue (c : CPU) (value : Nat) : CPU :=
  let r0 := { c.Registers with A := c.Registers.A ^^^ Lo value }
  let r1 := if r0.A = 0 then r0.SetFlag .FlagZ else r0
  let r2 := r1.ClearFlag .FlagN
  let r3 := r2.ClearFlag .FlagH
  let r4 := r3.ClearFlag .FlagC
  { c with Registers := r4 }

/-- `func (c *CPU) XOR(in) byte`. -/
def XOR (c : CPU) (ins : Instruction) : Except (Fault × CPU) (Nat × CPU) :=
  match ins.Operands with
  | [] => .error (.indexOutOfRange, c)
  | op0 :: _ =>
    match Resolve c op0 with
    | .ok value => .ok (4, xorValue c value)
    | .error e => .error (e, c)

/-- The 3-operand branch of `LD` (the special case of opcode 0xF8) after
operand 2 is resolved to `r8`; the sums are `uint16` arithmetic. -/
def ldSPr8 (c : CPU) (r8 : Nat) : CPU :=
  let r := c.Registers
  let setH := decide ((r.SP &&& 0xF) + (r8 &&& 0xF) > 0xF)
  let r1 := if setH then r.SetFlag .FlagH else r
  let setC := decide ((r.SP &&& 0xFF) + (r8 &&& 0xFF) > 0xFF)
  let r2 := if setC then r1.SetFlag .FlagC else r1
  let r3 := r2.ClearFlag .FlagZ
  let r4 := r3.ClearFlag .FlagN
  { c with Registers := r4.SetHL ((r4.SP + r8) % 65536) }

/-- The data move of the 2-operand `LD`: resolve the source, then write to
memory at the resolved destination or into the destination register.  Each of
its panics (in `Resolve`, or "invalid symbol type") comes before the write, so a
failure carries no new state: `LD` reports it with the state it started from. -/
def ldMove (c : CPU) (dst src : Operand) : Except Fault CPU :=
  match Resolve c src with
  | .error e => .error e
  | .ok srcData =>
    if dst.IsData || dst.Deref then
      match Resolve c dst with
      | .error e => .error e
      | .ok addr =>
        if src.Is16 then .ok (Write16 c addr srcData)
        else .ok (Write8 c addr (srcData % 256))
    else
      match dst.Symbol with
      | .register reg => .ok { c with Registers := c.Registers.Set reg srcData }
      | _ => .error .operandShape

/-- The closing loop of `LD` over the operands still to be visited: an operand
whose symbol is HL adjusts HL by its Inc and Dec tags. -/
def adjustHL (c : CPU) : List Operand → CPU
  | [] => c
  | op :: rest =>
    if op.Symbol ≠ .register .HL then
      adjustHL c rest
    else
      let hl := c.Registers.Get .HL
      let c1 := if op.Inc then
        { c with Registers := c.Registers.Set .HL ((hl + 1) % 65536) } else c
      let c2 := if op.Dec then
        { c1 with Registers := c1.Registers.Set .HL ((hl + 65535) % 65536) } else c1
      adjustHL c2 rest

/-- `func (c *CPU) LD(in) byte`. -/
def LD (c : CPU) (ins : Instruction) : Except (Fault × CPU) (Nat × CPU) :=
  match ins.Operands with
  | [_, _, op2] =>
    match Resolve c op2 with
    | .ok r8 => .ok (4, ldSPr8 c r8)
    | .error e => .error (e, c)
  | [dst, src] =>
    match ldMove c dst src with
    | .ok c1 => .ok (4, adjustHL c1 ins.Operands)
    | .error e => .error (e, c)
  | _ => .error (.operandShape, c)

/-- `func (c *CPU) Process(in) byte`. -/
def Process (c : CPU) (ins : Instruction) : Except (Fault × CPU) (Nat × CPU) :=
  match ins.Mnemonic with
  | .NOP => NOP c ins
  | .JP => JP c ins
  | .DI => DI c ins
  | .EI => EI c ins
  | .XOR => XOR c ins
  | .LD => LD c ins
  | _ => .error (.notImplemented, c)

/-- The observable part of a handler result: ticks, the registers A and F, the
pair HL, SP and PC; `none` when the handler fails. -/
def observe (r : Except (Fault × CPU) (Nat × CPU)) : Option (Nat × Nat × Nat × Nat × Nat × Nat) :=
  match r with
  | .ok (t, c) =>
    some (t, c.Registers.A, c.Registers.F, c.Registers.Get .HL, c.Registers.SP, c.Registers.PC)
  | .error _ => none

/-! ## Driver (`pkg/emulator/emulator.go`) -/

/-- Modelled from the spec: `fetch8()` (`CPU.Fetch8`, missing from the
sources) reads the byte at PC and advances PC by 1. -/
def Fetch8 (c : CPU) : Nat × CPU :=
  (Read8 c c.Registers.PC,
    { c with Registers := { c.Registers with PC := (c.Registers.PC + 1) % 65536 } })

/-- The body of `func (emu *Emulator) Step()`, with the call
`emu.CPU.Process(in)` as the parameter `process`.  The table behind
`instructions.FromOPCode` is missing from the sources and is the parameter
`FromOPCode`; the tracing calls of package `pretty` have no effect on the state
and are left out.  A fault carries the state at the panic. -/
def stepWith (process : CPU → Instruction → Except (Fault × CPU) (Nat × CPU))
    (FromOPCode : Nat → Bool → Option Instruction) (c : CPU) : Except (Fault × CPU) CPU :=
  let f1 := Fetch8 c
  let isCBPrexied := decide (f1.1 = 0xCB)
  let f2 := if isCBPrexied then Fetch8 f1.2 else f1
  match FromOPCode f2.1 isCBPrexied with
  | none => .error (.unknownInstruction, f2.2)
  | some ins =>
    match process f2.2 ins with
    | .ok r => .ok r.2
    | .error e => .error e

/-- `func (emu *Emulator) Step()`. -/
def Step (FromOPCode : Nat → Bool → Option Instruction) (c : CPU) : Except (Fault × CPU) CPU :=
  stepWith Process FromOPCode c

/-! ## Descriptors and states for the examples -/

/-- A state for the examples: IE = 0b00000101, IF = 0b00000100, IME set,
PC = 0x0150, SP = 0xFFFE, A = 0x3C, every other register and all memory zero. -/
def exampleCPU : CPU :=
  { Registers := { A := 0x3C, F := 0, B := 0, C := 0, D := 0, E := 0, H := 0, L := 0,
                   SP := 0xFFFE, PC := 0x0150 },
    IF := 0b00000100, IE := 0b00000101, IME := true, IsHalted := false,
    Memory := fun _ => 0 }

/-- A register operand, not dereferenced, without tags. -/
def regOperand (r : Register) : Operand :=
  { Symbol := .register r, Deref := false, Bits16 := false, Inc := false, Dec := false }

/-- An 8-bit immediate operand. -/
def imm8Operand (v : Nat) : Operand :=
  { Symbol := .immediate8 v, Deref := false, Bits16 := false, Inc := false, Dec := false }

/-- The signed 8-bit immediate operand `r8` with the byte `b`. -/
def r8Operand (b : Nat) : Operand :=
  { Symbol := .signed8 b, Deref := false, Bits16 := false, Inc := false, Dec := false }

/-- The signed value of the byte of a signed 8-bit immediate: 0..127 for the
bytes 0x00..0x7F and -128..-1 for the bytes 0x80..0xFF. -/
def toSigned8 (b : Nat) : Int :=
  if b < 128 then (b : Int) else (b : Int) - 256

/-- A 16-bit immediate operand. -/
def imm16Operand (v : Nat) : Operand :=
  { Symbol := .immediate16 v, Deref := false, Bits16 := true, Inc := false, Dec := false }

/-- A condition-code operand. -/
def condOperand (cd : Condition) : Operand :=
  { Symbol := .condition cd, Deref := false, Bits16 := false, Inc := false, Dec := false }

/-- The operand `(HL+)`: HL, dereferenced, with the increment tag. -/
def hlIncOperand : Operand :=
  { Symbol := .register .HL, Deref := true, Bits16 := false, Inc := true, Dec := false }

/-- An instruction descriptor with the given mnemonic and operands. -/
def mkInstruction (m : Mnemonic) (ops : List Operand) : Instruction :=
  { Mnemonic := m, Operands := ops, CBPrefixed := false, Cycles := 4 }

/-- The example state with A = 0x01 and only the Z flag set (F = 0x80). -/
def staleZeroCPU : CPU :=
  { exampleCPU with Registers := { exampleCPU.Registers with A := 0x01, F := 0x80 } }

/-- The example state with HL = 0xC000 (A = 0x3C, all memory zero). -/
def hlCPU : CPU :=
  { exampleCPU with Registers := { exampleCPU.Registers with H := 0xC0, L := 0x00 } }

/-- The operand HL, not dereferenced, 16 bits wide, with the increment tag. -/
def hlIncValueOperand : Operand :=
  { Symbol := .register .HL, Deref := false, Bits16 := true, Inc := true, Dec := false }

/-- The operand `(HL)` carrying both the increment and the decrement tag. -/
def hlIncDecOperand : Operand :=
  { Symbol := .register .HL, Deref := true, Bits16 := false, Inc := true, Dec := true }

/-- The operand `(HL-)`: HL, dereferenced, with the decrement tag. -/
def hlDecOperand : Operand :=
  { Symbol := .register .HL, Deref := true, Bits16 := false, Inc := false, Dec := true }

/-- The example state with SP = 0x00FF; F = 0, so H and C are clear. -/
def spCPU : CPU :=
  { exampleCPU with Registers := { exampleCPU.Registers with SP := 0x00FF } }

/-- The descriptor of opcode 0xF8, `LD HL, SP+r8`, with the immediate byte
`r8` of the signed displacement captured. -/
def ldHLSPr8 (r8 : Nat) : Instruction :=
  mkInstruction .LD
    [{ Symbol := .register .HL, Deref := false, Bits16 := true, Inc := false, Dec := false },
     { Symbol := .register .SP, Deref := false, Bits16 := true, Inc := true, Dec := false },
     r8Operand r8]

/-- The state after the data move of `LD (HL+), A` at `hlCPU`: the destination
resolves to the byte read at 0xC000, which is 0, and A is written there. -/
def hlStoredCPU : CPU :=
  Write8 hlCPU 0 0x3C

/-- The state after the data move of `LD A, (HL+)` at `hlCPU`: A receives the
byte read at 0xC000, which is 0. -/
def hlLoadedCPU : CPU :=
  { hlCPU with Registers := hlCPU.Registers.Set .A 0 }

/-- The example state with SP = 0x0100. -/
def sp100CPU : CPU :=
  { exampleCPU with Registers := { exampleCPU.Registers with SP := 0x0100 } }

/-- A 16-bit register operand, not dereferenced, without tags. -/
def pairOperand (r : Register) : Operand :=
  { Symbol := .register r, Deref := false, Bits16 := true, Inc := false, Dec := false }

/-- The bit-width of a named register: 8 for A, F, B, C, D, E, H, L and 16 for
the pairs AF, BC, DE, HL and for SP and PC. -/
def Register.width : Register → Nat
  | .A | .F | .B | .C | .D | .E | .H | .L => 8
  | _ => 16

/-- The storage cells behind a named register: itself for an 8-bit register,
SP and PC, and the two halves for a pair view. -/
def Register.cells : Register → List Register
  | .AF => [.A, .F]
  | .BC => [.B, .C]
  | .DE => [.D, .E]
  | .HL => [.H, .L]
  | r => [r]

/-- The operand `(0xC000)`: a memory-address operand, 8 bits wide. -/
def addrOperand (a : Nat) : Operand :=
  { Symbol := .memoryAddress a, Deref := true, Bits16 := false, Inc := false, Dec := false }

/-- The example state with the byte 0x34 at the address 0xC000, all other memory
zero. -/
def memCPU : CPU :=
  { exampleCPU with Memory := fun a => if a = 0xC000 then 0x34 else 0 }

/-- The example state with only the Z flag set (F = 0x80). -/
def zeroFlagCPU : CPU :=
  { exampleCPU with Registers := { exampleCPU.Registers with F := 0x80 } }

/-- The descriptor of `JP a16` with target 0x1234 and the base cycle cost 16 of
the opcode table. -/
def jpA16 : Instruction :=
  { Mnemonic := .JP, Operands := [imm16Operand 0x1234], CBPrefixed := false, Cycles := 16 }

/-- A decode table for the examples: 0x00 is NOP, CB 0x37 has a descriptor
(standing for one of the mnemonics outside the supported set), nothing else is
registered. -/
def exampleTable (opcode : Nat) (cbPrefixed : Bool) : Option Instruction :=
  if opcode = 0x00 ∧ cbPrefixed = false then some (mkInstruction .NOP [])
  else if opcode = 0x37 ∧ cbPrefixed = true then
    some { Mnemonic := .OTHER 0, Operands := [regOperand .A], CBPrefixed := true, Cycles := 8 }
  else none

/-- The example state with the bytes 0xCB 0x37 at PC = 0x0150. -/
def cbCPU : CPU :=
  { exampleCPU with Memory := fun a => if a = 0x0150 then 0xCB else if a = 0x0151 then 0x37 else 0 }

/-- The state with PC advanced by `n`, as `n` calls of `Fetch8` leave it. -/
def advancePC (c : CPU) (n : Nat) : CPU :=
  { c with Registers := { c.Registers with PC := (c.Registers.PC + n) % 65536 } }

/-! ## The shapes of a descriptor -/

/-- Whether the symbol of the operand is a condition code. -/
def Operand.IsCondition (op : Operand) : Bool :=
  match op.Symbol with
  | .condition _ => true
  | _ => false

/-- The handler that `process.go` defines for each mnemonic of the supported
set (`NOP`, `JP`, `DI`, `EI`, `XOR`, `LD`, `INC`, `DEC`). -/
def handlerOf (c : CPU) (ins : Instruction) : Except (Fault × CPU) (Nat × CPU) :=
  match ins.Mnemonic with
  | .NOP => NOP c ins
  | .JP => JP c ins
  | .DI => DI c ins
  | .EI => EI c ins
  | .XOR => XOR c ins
  | .LD => LD c ins
  | .INC => INC c ins
  | .DEC => DEC c ins
  | .OTHER _ => .error (.notImplemented, c)

/-- The wrong shapes of a descriptor, in the words of the specification: INC
or DEC whose operand 0 is not a register; JP with more than one operand whose
operand 0 is not a condition code; LD whose operand count is neither 2 nor 3;
2-operand LD whose destination is neither a memory-address or Deref operand nor
a register. -/
def listedWrongShape (ins : Instruction) : Bool :=
  match ins.Mnemonic with
  | .INC | .DEC =>
    match ins.Operands with
    | op0 :: _ => !op0.IsRegister
    | [] => false
  | .JP =>
    match ins.Operands with
    | op0 :: _ :: _ => !op0.IsCondition
    | _ => false
  | .LD =>
    match ins.Operands with
    | [dst, _] => !(dst.IsData || dst.Deref) && !dst.IsRegister
    | [_, _, _] => false
    | _ => true
  | _ => false

/-- INC, DEC or JP without any operand: the handler indexes `in.Operands[0]`. -/
def lacksOperand (ins : Instruction) : Bool :=
  match ins.Mnemonic with
  | .INC | .DEC | .JP => ins.Operands.isEmpty
  | _ => false

/-- The operands that the handler of INC, DEC, JP or LD passes to `Resolve` in
the state `c`, for a descriptor that is not of a listed wrong shape. -/
def resolvedOperands (c : CPU) (ins : Instruction) : List Operand :=
  match ins.Mnemonic with
  | .JP =>
    match ins.Operands with
    | [op0] => [op0]
    | op0 :: op1 :: _ =>
      match op0.Symbol with
      | .condition cond => if c.Registers.IsCondition cond then [op1] else []
      | _ => []
    | [] => []
  | .LD =>
    match ins.Operands with
    | [_, _, op2] => [op2]
    | [dst, src] => if dst.IsData || dst.Deref then [src, dst] else [src]
    | _ => []
  | _ => []

/-! ## Bit-level lemmas -/

theorem land_two_pow_ne_zero_iff (x k : Nat) :
    x &&& 2 ^ k ≠ 0 ↔ x.testBit k = true := by
  constructor
  · intro h
    by_contra hb
    apply h
    apply Nat.zero_of_testBit_eq_false
    intro i
    rw [Nat.testBit_and, Nat.testBit_two_pow]
    by_cases hki : k = i
    · subst hki
      simp [hb]
    · simp [hki]
  · intro hb h0
    have h1 : (x &&& 2 ^ k).testBit k = true := by
      rw [Nat.testBit_and, Nat.testBit_two_pow_self, hb]
      rfl
    rw [h0] at h1
    simp at h1

theorem Interrupt.toByte_eq (it : Interrupt) : it.toByte = 2 ^ it.bit := by
  cases it <;> rfl

theorem Interrupt.bit_lt (it : Interrupt) : it.bit < 5 := by
  cases it <;> decide

theorem land_toByte_ne_zero_iff (x : Nat) (it : Interrupt) :
    x &&& it.toByte ≠ 0 ↔ x.testBit it.bit = true := by
  rw [Interrupt.toByte_eq]
  exact land_two_pow_ne_zero_iff x it.bit

/-! ## Interrupt dispatch -/

theorem read16_write16 (c : CPU) (sp v : Nat) (hv : v < 65536) :
    Read16 (Write16 c sp v) sp = v := by
  have h1 : sp % 65536 ≠ (sp + 1) % 65536 := by omega
  have h2 : (sp + 1) % 65536 % 65536 = (sp + 1) % 65536 := by omega
  simp only [Read16, Read8, Write16, Write8, h2]
  rw [if_neg h1]
  simp only [if_true]
  omega

theorem read16_congr (c d : CPU) (a : Nat) (h : c.Memory = d.Memory) :
    Read16 c a = Read16 d a := by
  simp only [Read16, Read8, h]

theorem read16_serviceInterrupt (c : CPU) (it : Interrupt) (h : c.Registers.PC < 65536) :
    Read16 (serviceInterrupt c it) (serviceInterrupt c it).Registers.SP = c.Registers.PC := by
  have hsp : (serviceInterrupt c it).Registers.SP = (c.Registers.SP + 65536 - 2) % 65536 := by
    simp only [serviceInterrupt, StackPush16, Write16, Write8]
  have hmem : (serviceInterrupt c it).Memory =
      (Write16 c ((c.Registers.SP + 65536 - 2) % 65536) c.Registers.PC).Memory := by
    simp only [serviceInterrupt, StackPush16, Write16, Write8]
  rw [hsp, read16_congr _ _ _ hmem]
  exact read16_write16 _ _ _ h

theorem handleLoop_skip (c : CPU) (it : Interrupt) (rest : List Interrupt)
    (h : ¬ (c.IF.testBit it.bit = true ∧ c.IE.testBit it.bit = true)) :
    handleLoop c (it :: rest) = handleLoop c rest := by
  have h2 : ¬ (c.IF &&& it.toByte ≠ 0 ∧ c.IE &&& it.toByte ≠ 0) := by
    rw [land_toByte_ne_zero_iff, land_toByte_ne_zero_iff]
    exact h
  rw [handleLoop, if_neg h2]

theorem handleLoop_take (c : CPU) (it : Interrupt) (rest : List Interrupt)
    (h : c.IF.testBit it.bit = true ∧ c.IE.testBit it.bit = true) :
    handleLoop c (it :: rest) = (some it, serviceInterrupt c it) := by
  have h2 : c.IF &&& it.toByte ≠ 0 ∧ c.IE &&& it.toByte ≠ 0 := by
    rw [land_toByte_ne_zero_iff, land_toByte_ne_zero_iff]
    exact h
  rw [handleLoop, if_pos h2]

theorem testBit_pending (x y i : Nat) :
    (x &&& y &&& 0x1F).testBit i = (x.testBit i && y.testBit i && decide (i < 5)) := by
  have h31 : (0x1F : Nat) = 2 ^ 5 - 1 := by norm_num
  rw [h31, Nat.testBit_and, Nat.testBit_and, Nat.testBit_two_pow_sub_one]

theorem serviceInterrupt_PC (c : CPU) (it : Interrupt) :
    (serviceInterrupt c it).Registers.PC = interruptsToAddress it := by
  simp only [serviceInterrupt, StackPush16, Write16, Write8]

theorem serviceInterrupt_SP (c : CPU) (it : Interrupt) :
    (serviceInterrupt c it).Registers.SP = (c.Registers.SP + 65536 - 2) % 65536 := by
  simp only [serviceInterrupt, StackPush16, Write16, Write8]

theorem serviceInterrupt_IF (c : CPU) (it : Interrupt) :
    (serviceInterrupt c it).IF = c.IF &&& (0xFF ^^^ it.toByte) := by
  simp only [serviceInterrupt, StackPush16, Write16, Write8]

theorem serviceInterrupt_IE (c : CPU) (it : Interrupt) :
    (serviceInterrupt c it).IE = c.IE := by
  simp only [serviceInterrupt, StackPush16, Write16, Write8]

theorem serviceInterrupt_IME (c : CPU) (it : Interrupt) :
    (serviceInterrupt c it).IME = false := by
  simp only [serviceInterrupt]

theorem serviceInterrupt_IsHalted (c : CPU) (it : Interrupt) :
    (serviceInterrupt c it).IsHalted = false := by
  simp only [serviceInterrupt]

theorem testBit_clear_bit (x k i : Nat) (hx : x < 256) :
    (x &&& (0xFF ^^^ 2 ^ k)).testBit i = (x.testBit i && decide (i ≠ k)) := by
  have h255 : (0xFF : Nat) = 2 ^ 8 - 1 := by norm_num
  rw [h255, Nat.testBit_and, Nat.testBit_xor, Nat.testBit_two_pow_sub_one, Nat.testBit_two_pow]
  by_cases hi : i < 8
  · by_cases hki : k = i
    · subst hki
      simp [hi]
    · have hik : i ≠ k := fun e => hki e.symm
      simp [hi, hki, hik]
  · have hxi : x.testBit i = false := by
      apply Nat.testBit_lt_two_pow
      calc x < 2 ^ 8 := by simpa using hx
        _ ≤ 2 ^ i := Nat.pow_le_pow_right (by norm_num) (by omega)
    simp [hxi]

theorem serviceInterrupt_IF_testBit (c : CPU) (it : Interrupt) (i : Nat) (h : c.IF < 256) :
    (serviceInterrupt c it).IF.testBit i = (c.IF.testBit i && decide (i ≠ it.bit)) := by
  rw [serviceInterrupt_IF, Interrupt.toByte_eq]
  exact testBit_clear_bit c.IF it.bit i h

/-- The loop either visits every source without finding one pending and
enabled, or services the first such source of the list. -/
theorem handleLoop_cases (c : CPU) (l : List Interrupt) :
    ((∀ t ∈ l, ¬ (c.IF.testBit t.bit = true ∧ c.IE.testBit t.bit = true)) ∧
      handleLoop c l = (none, c)) ∨
    (∃ pre s post, l = pre ++ s :: post ∧
      (∀ t ∈ pre, ¬ (c.IF.testBit t.bit = true ∧ c.IE.testBit t.bit = true)) ∧
      (c.IF.testBit s.bit = true ∧ c.IE.testBit s.bit = true) ∧
      handleLoop c l = (some s, serviceInterrupt c s)) := by
  induction l with
  | nil =>
    left
    exact ⟨by simp, rfl⟩
  | cons it rest ih =>
    by_cases hp : c.IF.testBit it.bit = true ∧ c.IE.testBit it.bit = true
    · right
      exact ⟨[], it, rest, rfl, by simp, hp, handleLoop_take c it rest hp⟩
    · rw [handleLoop_skip c it rest hp]
      rcases ih with ⟨hall, hres⟩ | ⟨pre, s, post, hl, hpre, hs, hres⟩
      · left
        refine ⟨?_, hres⟩
        intro t ht
        rcases List.mem_cons.mp ht with rfl | ht
        · exact hp
        · exact hall t ht
      · right
        refine ⟨it :: pre, s, post, by rw [hl]; rfl, ?_, hs, hres⟩
        intro t ht
        rcases List.mem_cons.mp ht with rfl | ht
        · exact hp
        · exact hpre t ht

/-- In the array `interrupts` every source before `s` has a lower bit, and every
bit below the bit of `s` is the bit of a source before `s`. -/
theorem interrupts_split (pre post : List Interrupt) (s : Interrupt)
    (h : interrupts = pre ++ s :: post) (i : Nat) (hi : i < s.bit) :
    ∃ t ∈ pre, t.bit = i := by
  have hlen : pre.length < 5 := by
    have := congrArg List.length h
    simp [interrupts] at this
    omega
  rcases pre with _ | ⟨a, _ | ⟨b, _ | ⟨d, _ | ⟨e, _ | ⟨f, pre⟩⟩⟩⟩⟩
  · simp [interrupts] at h
    obtain ⟨rfl, -⟩ := h
    simp [Interrupt.bit] at hi
  · simp [interrupts] at h
    obtain ⟨rfl, rfl, -⟩ := h
    simp [Interrupt.bit] at hi ⊢
    omega
  · simp [interrupts] at h
    obtain ⟨rfl, rfl, rfl, -⟩ := h
    simp [Interrupt.bit] at hi ⊢
    omega
  · simp [interrupts] at h
    obtain ⟨rfl, rfl, rfl, rfl, -⟩ := h
    simp [Interrupt.bit] at hi ⊢
    omega
  · simp [interrupts] at h
    obtain ⟨rfl, rfl, rfl, rfl, rfl, -⟩ := h
    simp [Interrupt.bit] at hi ⊢
    omega
  · simp at hlen
    omega

theorem mem_interrupts (t : Interrupt) : t ∈ interrupts := by
  cases t <;> simp [interrupts]

/-! ## Claims on `HandleInterrupts` -/

/-- C1: in a state with at least one of the five sources pending in IF and
enabled in IE, `HandleInterrupts` returns the source `s` whose bit is the lowest
set bit of `IF & IE & 0x1F`, pushes the old PC (SP is decremented by 2 and the
16-bit value at the new SP is the old PC), sets PC to the vector of `s`
(0x40, 0x48, 0x50, 0x58, 0x60), clears the bit of `s` in IF, and leaves IME and
IsHalted false. -/
theorem handleInterrupts_services_lowest (c : CPU) (hwf : c.WF)
    (h : c.IF &&& c.IE &&& 0x1F ≠ 0) :
    ∃ s : Interrupt,
      (HandleInterrupts c).1 = some s ∧
      s.toByte = 2 ^ s.bit ∧
      (c.IF &&& c.IE &&& 0x1F).testBit s.bit = true ∧
      (∀ i, i < s.bit → (c.IF &&& c.IE &&& 0x1F).testBit i = false) ∧
      (HandleInterrupts c).2.Registers.SP = (c.Registers.SP + 65536 - 2) % 65536 ∧
      Read16 (HandleInterrupts c).2 (HandleInterrupts c).2.Registers.SP = c.Registers.PC ∧
      (HandleInterrupts c).2.Registers.PC =
        (match s with
          | .VBLANK => 0x40
          | .LCD_STAT => 0x48
          | .TIMER => 0x50
          | .SERIAL => 0x58
          | .JOYPAD => 0x60) ∧
      (HandleInterrupts c).2.IF.testBit s.bit = false ∧
      (HandleInterrupts c).2.IME = false ∧
      (HandleInterrupts c).2.IsHalted = false := by
  obtain ⟨_, _, _, _, _, _, _, _, _, hpc, hif, _⟩ := hwf
  rcases handleLoop_cases c interrupts with ⟨hall, -⟩ | ⟨pre, s, post, hl, hpre, hs, hres⟩
  · exfalso
    obtain ⟨i, hi⟩ := Nat.ne_zero_implies_bit_true h
    rw [testBit_pending] at hi
    simp only [Bool.and_eq_true, decide_eq_true_eq] at hi
    obtain ⟨⟨h1, h2⟩, h5⟩ := hi
    have key : ∃ t : Interrupt, t.bit = i := by
      interval_cases i
      · exact ⟨.VBLANK, rfl⟩
      · exact ⟨.LCD_STAT, rfl⟩
      · exact ⟨.TIMER, rfl⟩
      · exact ⟨.SERIAL, rfl⟩
      · exact ⟨.JOYPAD, rfl⟩
    obtain ⟨t, rfl⟩ := key
    exact hall t (mem_interrupts t) ⟨h1, h2⟩
  · have hH : HandleInterrupts c = (some s, serviceInterrupt c s) := hres
    refine ⟨s, ?_, s.toByte_eq, ?_, ?_, ?_, ?_, ?_, ?_, ?_, ?_⟩
    · rw [hH]
    · rw [testBit_pending]
      simp [hs.1, hs.2, s.bit_lt]
    · intro i hi
      obtain ⟨t, ht, rfl⟩ := interrupts_split pre post s hl i hi
      rw [testBit_pending]
      have := hpre t ht
      by_cases h1 : c.IF.testBit t.bit = true
      · have h2 : c.IE.testBit t.bit = false := by
          cases hb : c.IE.testBit t.bit
          · rfl
          · exact absurd ⟨h1, hb⟩ this
        simp [h2]
      · simp [h1]
    · rw [hH]
      exact serviceInterrupt_SP c s
    · rw [hH]
      exact read16_serviceInterrupt c s hpc
    · rw [hH]
      show (serviceInterrupt c s).Registers.PC = _
      rw [serviceInterrupt_PC]
      cases s <;> rfl
    · rw [hH]
      show (serviceInterrupt c s).IF.testBit s.bit = false
      rw [serviceInterrupt_IF_testBit c s s.bit hif]
      simp
    · rw [hH]
      exact serviceInterrupt_IME c s
    · rw [hH]
      exact serviceInterrupt_IsHalted c s

/-- The spec's example of C1: with IE = 0b00000101, IF = 0b00000100 and IME
set, `HandleInterrupts` services Timer, with PC = 0x0050, IF = 0, IME false, and
the old PC 0x0150 on the stack at the new SP 0xFFFC. -/
theorem handleInterrupts_services_lowest_witness :
    (exampleCPU.WF ∧ exampleCPU.IF &&& exampleCPU.IE &&& 0x1F ≠ 0) ∧
    (∃ s : Interrupt,
      (HandleInterrupts exampleCPU).1 = some s ∧
      s.toByte = 2 ^ s.bit ∧
      (exampleCPU.IF &&& exampleCPU.IE &&& 0x1F).testBit s.bit = true ∧
      (∀ i, i < s.bit → (exampleCPU.IF &&& exampleCPU.IE &&& 0x1F).testBit i = false) ∧
      (HandleInterrupts exampleCPU).2.Registers.SP =
        (exampleCPU.Registers.SP + 65536 - 2) % 65536 ∧
      Read16 (HandleInterrupts exampleCPU).2 (HandleInterrupts exampleCPU).2.Registers.SP =
        exampleCPU.Registers.PC ∧
      (HandleInterrupts exampleCPU).2.Registers.PC =
        (match s with
          | .VBLANK => 0x40
          | .LCD_STAT => 0x48
          | .TIMER => 0x50
          | .SERIAL => 0x58
          | .JOYPAD => 0x60) ∧
      (HandleInterrupts exampleCPU).2.IF.testBit s.bit = false ∧
      (HandleInterrupts exampleCPU).2.IME = false ∧
      (HandleInterrupts exampleCPU).2.IsHalted = false) ∧
    (HandleInterrupts exampleCPU).1 = some .TIMER ∧
    (HandleInterrupts exampleCPU).2.Registers.PC = 0x0050 ∧
    (HandleInterrupts exampleCPU).2.IF = 0 ∧
    (HandleInterrupts exampleCPU).2.Registers.SP = 0xFFFC ∧
    Read16 (HandleInterrupts exampleCPU).2 0xFFFC = 0x0150 :=
  ⟨⟨by decide, by decide⟩,
   handleInterrupts_services_lowest exampleCPU (by decide) (by decide),
   by decide, by decide, by decide, by decide, by decide⟩

/-- C2: in a state where no source among bits 0..4 is set in both IF and IE,
`HandleInterrupts` returns nil and the state is the one it started from: the
registers, IF, IE, IME, IsHalted and memory. -/
theorem handleInterrupts_none (c : CPU) (h : c.IF &&& c.IE &&& 0x1F = 0) :
    HandleInterrupts c = (none, c) := by
  rcases handleLoop_cases c interrupts with ⟨-, hres⟩ | ⟨pre, s, post, -, -, hs, -⟩
  · exact hres
  · exfalso
    have hb : (c.IF &&& c.IE &&& 0x1F).testBit s.bit = true := by
      rw [testBit_pending]
      simp [hs.1, hs.2, s.bit_lt]
    rw [h] at hb
    simp at hb

/-- A state with nothing pending: C2 holds at the example state once IF is
cleared. -/
theorem handleInterrupts_none_witness :
    ({ exampleCPU with IF := 0 } : CPU).IF &&& ({ exampleCPU with IF := 0 } : CPU).IE &&& 0x1F = 0 ∧
    HandleInterrupts { exampleCPU with IF := 0 } = (none, { exampleCPU with IF := 0 }) :=
  ⟨by decide, handleInterrupts_none { exampleCPU with IF := 0 } (by decide)⟩

theorem clear_bit_add (x k : Nat) (hx : x < 256) (hk : k < 5) (hb : x.testBit k = true) :
    (x &&& (0xFF ^^^ 2 ^ k)) + 2 ^ k = x := by
  interval_cases k <;> interval_cases x <;> first | rfl | (exfalso; revert hb; decide)

/-- C3: one call of `HandleInterrupts` services at most one source: when it
returns the source `s`, the bit of `s` was set in IF, IF afterwards is the old
IF with exactly that bit cleared (every other bit, bits 5..7 and other pending
sources included, is as before), and IE is unchanged. -/
theorem handleInterrupts_clears_one_bit (c : CPU) (hwf : c.WF) (s : Interrupt)
    (h : (HandleInterrupts c).1 = some s) :
    c.IF.testBit s.bit = true ∧
    (∀ i, (HandleInterrupts c).2.IF.testBit i = (c.IF.testBit i && decide (i ≠ s.bit))) ∧
    (HandleInterrupts c).2.IF + s.toByte = c.IF ∧
    (HandleInterrupts c).2.IE = c.IE := by
  obtain ⟨_, _, _, _, _, _, _, _, _, _, hif, _⟩ := hwf
  rcases handleLoop_cases c interrupts with ⟨-, hres⟩ | ⟨pre, t, post, -, -, ht, hres⟩
  · have hH : HandleInterrupts c = (none, c) := hres
    rw [hH] at h
    simp at h
  · have hH : HandleInterrupts c = (some t, serviceInterrupt c t) := hres
    rw [hH] at h
    have hts : t = s := by simpa using h
    subst hts
    rw [hH]
    refine ⟨ht.1, ?_, ?_, serviceInterrupt_IE c t⟩
    · intro i
      exact serviceInterrupt_IF_testBit c t i hif
    · show (serviceInterrupt c t).IF + t.toByte = c.IF
      rw [serviceInterrupt_IF, Interrupt.toByte_eq]
      exact clear_bit_add c.IF t.bit hif t.bit_lt ht.1

/-- C3 at a state with IF = 0b11100101 and IE = 0b00000101: VBlank is serviced,
IF becomes 0b11100100, IE stays. -/
theorem handleInterrupts_clears_one_bit_witness :
    (({ exampleCPU with IF := 0b11100101 } : CPU).WF ∧
      (HandleInterrupts { exampleCPU with IF := 0b11100101 }).1 = some .VBLANK) ∧
    (({ exampleCPU with IF := 0b11100101 } : CPU).IF.testBit Interrupt.VBLANK.bit = true ∧
      (∀ i, (HandleInterrupts { exampleCPU with IF := 0b11100101 }).2.IF.testBit i =
        (({ exampleCPU with IF := 0b11100101 } : CPU).IF.testBit i &&
          decide (i ≠ Interrupt.VBLANK.bit))) ∧
      (HandleInterrupts { exampleCPU with IF := 0b11100101 }).2.IF + Interrupt.VBLANK.toByte =
        ({ exampleCPU with IF := 0b11100101 } : CPU).IF ∧
      (HandleInterrupts { exampleCPU with IF := 0b11100101 }).2.IE =
        ({ exampleCPU with IF := 0b11100101 } : CPU).IE) ∧
    (HandleInterrupts { exampleCPU with IF := 0b11100101 }).2.IF = 0b11100100 :=
  ⟨⟨by decide, by decide⟩,
   handleInterrupts_clears_one_bit { exampleCPU with IF := 0b11100101 } (by decide) .VBLANK
     (by decide),
   by decide⟩

/-- C4: when VBlank and Timer are both pending and enabled and LCDStat is not,
the first `HandleInterrupts` call returns VBlank only (PC = 0x40, bit 2 of IF
still set), and a second call on the resulting state with IME set again returns
Timer with PC = 0x50. -/
theorem handleInterrupts_vblank_then_timer (c : CPU)
    (hv : c.IF.testBit 0 = true ∧ c.IE.testBit 0 = true)
    (ht : c.IF.testBit 2 = true ∧ c.IE.testBit 2 = true)
    (hl : ¬ (c.IF.testBit 1 = true ∧ c.IE.testBit 1 = true)) :
    (HandleInterrupts c).1 = some .VBLANK ∧
    (HandleInterrupts c).2.Registers.PC = 0x40 ∧
    (HandleInterrupts c).2.IF.testBit 2 = true ∧
    (HandleInterrupts { (HandleInterrupts c).2 with IME := true }).1 = some .TIMER ∧
    (HandleInterrupts { (HandleInterrupts c).2 with IME := true }).2.Registers.PC = 0x50 := by
  have h1 : HandleInterrupts c = (some .VBLANK, serviceInterrupt c .VBLANK) :=
    handleLoop_take c .VBLANK _ hv
  have hIF : ∀ i, (serviceInterrupt c .VBLANK).IF.testBit i =
      (c.IF.testBit i && (0xFF ^^^ 1 : Nat).testBit i) := by
    intro i
    rw [serviceInterrupt_IF, Nat.testBit_and]
    rfl
  have hb0 : (0xFF ^^^ 1 : Nat).testBit 0 = false := by decide
  have hb1 : (0xFF ^^^ 1 : Nat).testBit 1 = true := by decide
  have hb2 : (0xFF ^^^ 1 : Nat).testBit 2 = true := by decide
  have h2 : HandleInterrupts { serviceInterrupt c .VBLANK with IME := true } =
      (some .TIMER, serviceInterrupt { serviceInterrupt c .VBLANK with IME := true } .TIMER) := by
    show handleLoop _ [.VBLANK, .LCD_STAT, .TIMER, .SERIAL, .JOYPAD] = _
    rw [handleLoop_skip, handleLoop_skip, handleLoop_take]
    · show (serviceInterrupt c .VBLANK).IF.testBit 2 = true ∧
        (serviceInterrupt c .VBLANK).IE.testBit 2 = true
      rw [hIF, serviceInterrupt_IE, ht.1, ht.2, hb2]
      exact ⟨rfl, rfl⟩
    · show ¬ ((serviceInterrupt c .VBLANK).IF.testBit 1 = true ∧
        (serviceInterrupt c .VBLANK).IE.testBit 1 = true)
      rw [hIF, serviceInterrupt_IE, hb1, Bool.and_true]
      exact hl
    · show ¬ ((serviceInterrupt c .VBLANK).IF.testBit 0 = true ∧
        (serviceInterrupt c .VBLANK).IE.testBit 0 = true)
      rw [hIF, hb0, Bool.and_false]
      simp
  rw [h1]
  refine ⟨rfl, ?_, ?_, ?_, ?_⟩
  · exact serviceInterrupt_PC c .VBLANK
  · show (serviceInterrupt c .VBLANK).IF.testBit 2 = true
    rw [hIF, ht.1, hb2]
    rfl
  · show (HandleInterrupts { serviceInterrupt c .VBLANK with IME := true }).1 = _
    rw [h2]
  · show (HandleInterrupts { serviceInterrupt c .VBLANK with IME := true }).2.Registers.PC = _
    rw [h2]
    exact serviceInterrupt_PC _ .TIMER

/-- C4 at the example state with IF = IE = 0b00000101. -/
theorem handleInterrupts_vblank_then_timer_witness :
    ((({ exampleCPU with IF := 0b00000101 } : CPU).IF.testBit 0 = true ∧
        ({ exampleCPU with IF := 0b00000101 } : CPU).IE.testBit 0 = true) ∧
      (({ exampleCPU with IF := 0b00000101 } : CPU).IF.testBit 2 = true ∧
        ({ exampleCPU with IF := 0b00000101 } : CPU).IE.testBit 2 = true) ∧
      ¬ (({ exampleCPU with IF := 0b00000101 } : CPU).IF.testBit 1 = true ∧
        ({ exampleCPU with IF := 0b00000101 } : CPU).IE.testBit 1 = true)) ∧
    ((HandleInterrupts { exampleCPU with IF := 0b00000101 }).1 = some .VBLANK ∧
      (HandleInterrupts { exampleCPU with IF := 0b00000101 }).2.Registers.PC = 0x40 ∧
      (HandleInterrupts { exampleCPU with IF := 0b00000101 }).2.IF.testBit 2 = true ∧
      (HandleInterrupts
        { (HandleInterrupts { exampleCPU with IF := 0b00000101 }).2 with IME := true }).1 =
          some .TIMER ∧
      (HandleInterrupts
        { (HandleInterrupts { exampleCPU with IF := 0b00000101 }).2 with
          IME := true }).2.Registers.PC = 0x50) :=
  ⟨⟨by decide, by decide, by decide⟩,
   handleInterrupts_vblank_then_timer { exampleCPU with IF := 0b00000101 }
     (by decide) (by decide) (by decide)⟩

/-! ## Flags -/

theorem Flag.mask_eq (f : Flag) : f.mask = 2 ^ f.bit := by
  cases f <;> rfl

theorem Flag.bit_inj (f g : Flag) (h : f.bit = g.bit) : f = g := by
  cases f <;> cases g <;> first | rfl | (exfalso; revert h; decide)

theorem Flag.testBit_nibble (f : Flag) : (0xF0 : Nat).testBit f.bit = true := by
  cases f <;> decide

theorem Flag.testBit_complement (f g : Flag) :
    (0xFF ^^^ f.mask).testBit g.bit = !decide (f = g) := by
  cases f <;> cases g <;> decide

theorem Flag.testBit_mask (f g : Flag) : f.mask.testBit g.bit = decide (f = g) := by
  cases f <;> cases g <;> decide

theorem testFlag_eq_testBit (r : Registers) (f : Flag) :
    r.TestFlag f = r.F.testBit f.bit := by
  unfold Registers.TestFlag
  rw [Flag.mask_eq]
  cases hb : r.F.testBit f.bit
  · have : ¬ (r.F &&& 2 ^ f.bit ≠ 0) := by
      rw [land_two_pow_ne_zero_iff, hb]
      simp
    simpa using this
  · have : r.F &&& 2 ^ f.bit ≠ 0 := by
      rw [land_two_pow_ne_zero_iff, hb]
    simpa using this

theorem testFlag_setFlag (r : Registers) (f g : Flag) :
    (r.SetFlag f).TestFlag g = (decide (f = g) || r.TestFlag g) := by
  rw [testFlag_eq_testBit, testFlag_eq_testBit]
  show ((r.F ||| f.mask) &&& 0xF0).testBit g.bit = _
  rw [Nat.testBit_and, Nat.testBit_or, Flag.testBit_nibble, Flag.testBit_mask, Bool.and_true,
    Bool.or_comm]

theorem testFlag_clearFlag (r : Registers) (f g : Flag) :
    (r.ClearFlag f).TestFlag g = (!decide (f = g) && r.TestFlag g) := by
  rw [testFlag_eq_testBit, testFlag_eq_testBit]
  show ((r.F &&& (0xFF ^^^ f.mask)) &&& 0xF0).testBit g.bit = _
  rw [Nat.testBit_and, Nat.testBit_and, Flag.testBit_nibble, Flag.testBit_complement,
    Bool.and_true, Bool.and_comm]

theorem testFlag_congr (r r2 : Registers) (f : Flag) (h : r2.F = r.F) :
    r2.TestFlag f = r.TestFlag f := by
  unfold Registers.TestFlag
  rw [h]

/-! ## Claims on `XOR` -/

/-- C5 at a failing input: with A = 0x01 and Z set, `XOR` with an operand
resolving to 0x02 leaves A = 0x03, a non-zero result, and Z is still set: `XOR`
sets Z on a zero result and never clears it. -/
theorem xor_keeps_stale_zero_flag :
    Resolve staleZeroCPU (imm8Operand 0x02) = .ok 0x02 ∧
    staleZeroCPU.Registers.A ^^^ 0x02 = 0x03 ∧
    XOR staleZeroCPU (mkInstruction .XOR [imm8Operand 0x02]) =
      .ok (4, xorValue staleZeroCPU 0x02) ∧
    (xorValue staleZeroCPU 0x02).Registers.A = 0x03 ∧
    (xorValue staleZeroCPU 0x02).Registers.TestFlag .FlagZ = true :=
  ⟨rfl, by decide, rfl, by decide, by decide⟩

/-- C6: in every state, `XOR` with an operand resolving to the value of A
leaves A = 0x00 with Z set and N, H and C cleared. -/
theorem xor_self_zero (c : CPU) (hwf : c.WF) (ins : Instruction) (op0 : Operand)
    (rest : List Operand) (hops : ins.Operands = op0 :: rest)
    (hres : Resolve c op0 = .ok c.Registers.A) :
    XOR c ins = .ok (4, xorValue c c.Registers.A) ∧
    (xorValue c c.Registers.A).Registers.A = 0x00 ∧
    (xorValue c c.Registers.A).Registers.TestFlag .FlagZ = true ∧
    (xorValue c c.Registers.A).Registers.TestFlag .FlagN = false ∧
    (xorValue c c.Registers.A).Registers.TestFlag .FlagH = false ∧
    (xorValue c c.Registers.A).Registers.TestFlag .FlagC = false := by
  have hA : c.Registers.A < 256 := hwf.1
  have hx : c.Registers.A ^^^ Lo c.Registers.A = 0 := by
    unfold Lo
    rw [Nat.mod_eq_of_lt hA, Nat.xor_self]
  have hv : (xorValue c c.Registers.A).Registers =
      ((({ c.Registers with A := 0 } : Registers).SetFlag .FlagZ).ClearFlag .FlagN
        |>.ClearFlag .FlagH |>.ClearFlag .FlagC) := by
    simp only [xorValue, hx, if_true]
  refine ⟨?_, ?_, ?_, ?_, ?_, ?_⟩
  · simp only [XOR, hops, hres]
  · rw [hv]
    rfl
  · rw [hv]
    simp [testFlag_clearFlag, testFlag_setFlag]
  · rw [hv]
    simp [testFlag_clearFlag, testFlag_setFlag]
  · rw [hv]
    simp [testFlag_clearFlag, testFlag_setFlag]
  · rw [hv]
    simp [testFlag_clearFlag, testFlag_setFlag]

/-- The spec's example of C6: A = 0x3C and `XOR A`, whose operand resolves to
0x3C, give A = 0x00 and F = 0x80 (Z alone). -/
theorem xor_self_zero_witness :
    (exampleCPU.WF ∧
      (mkInstruction .XOR [regOperand .A]).Operands = regOperand .A :: [] ∧
      Resolve exampleCPU (regOperand .A) = .ok exampleCPU.Registers.A) ∧
    (XOR exampleCPU (mkInstruction .XOR [regOperand .A]) =
        .ok (4, xorValue exampleCPU exampleCPU.Registers.A) ∧
      (xorValue exampleCPU exampleCPU.Registers.A).Registers.A = 0x00 ∧
      (xorValue exampleCPU exampleCPU.Registers.A).Registers.TestFlag .FlagZ = true ∧
      (xorValue exampleCPU exampleCPU.Registers.A).Registers.TestFlag .FlagN = false ∧
      (xorValue exampleCPU exampleCPU.Registers.A).Registers.TestFlag .FlagH = false ∧
      (xorValue exampleCPU exampleCPU.Registers.A).Registers.TestFlag .FlagC = false) ∧
    exampleCPU.Registers.A = 0x3C ∧
    observe (XOR exampleCPU (mkInstruction .XOR [regOperand .A])) =
      some (4, 0x00, 0x80, 0, 0xFFFE, 0x0150) :=
  ⟨⟨by decide, rfl, rfl⟩,
   xor_self_zero exampleCPU (by decide) (mkInstruction .XOR [regOperand .A]) (regOperand .A) []
     rfl rfl,
   rfl, by decide⟩

/-! ## Claims on `JP` -/

/-- C7: `JP` with one operand sets PC to the resolved value of operand 0; with
two operands of which operand 0 is a condition code it sets PC to the resolved
value of operand 1 when the condition holds on the current flags and leaves PC
(and the whole state) unchanged when it does not; whenever `JP` returns, F and
every register other than PC, and everything outside the register file, are
unchanged. -/
theorem jp_sets_pc (c : CPU) (ins : Instruction) :
    (∀ op0 v, ins.Operands = [op0] → Resolve c op0 = .ok v →
      JP c ins = .ok (4, { c with Registers := { c.Registers with PC := v } })) ∧
    (∀ op0 op1 cd v, ins.Operands = [op0, op1] → op0.Symbol = .condition cd →
      c.Registers.IsCondition cd = true → Resolve c op1 = .ok v →
      JP c ins = .ok (4, { c with Registers := { c.Registers with PC := v } })) ∧
    (∀ op0 op1 cd, ins.Operands = [op0, op1] → op0.Symbol = .condition cd →
      c.Registers.IsCondition cd = false →
      JP c ins = .ok (4, c)) ∧
    (∀ t c2, JP c ins = .ok (t, c2) →
      c2.Registers.F = c.Registers.F ∧
      c2 = { c with Registers := { c.Registers with PC := c2.Registers.PC } }) := by
  refine ⟨?_, ?_, ?_, ?_⟩
  · intro op0 v hops hres
    simp only [JP, hops, hres]
  · intro op0 op1 cd v hops hsym hcond hres
    simp only [JP, hops, hsym, hcond, hres, if_true]
  · intro op0 op1 cd hops hsym hcond
    simp only [JP, hops, hsym, hcond]
    rfl
  · intro t c2 h
    unfold JP at h
    split at h
    · simp at h
    · split at h
      · simp only [Except.ok.injEq, Prod.mk.injEq] at h
        obtain ⟨-, rfl⟩ := h
        exact ⟨rfl, rfl⟩
      · simp at h
    · split at h
      · split at h
        · split at h
          · simp only [Except.ok.injEq, Prod.mk.injEq] at h
            obtain ⟨-, rfl⟩ := h
            exact ⟨rfl, rfl⟩
          · simp at h
        · simp only [Except.ok.injEq, Prod.mk.injEq] at h
          obtain ⟨-, rfl⟩ := h
          exact ⟨rfl, rfl⟩
      · simp at h

/-- C7 at the example state (Z clear): `JP 0x1234` sets PC = 0x1234,
`JP NZ, 0x1234` sets PC = 0x1234, `JP Z, 0x1234` leaves PC = 0x0150, and F is
unchanged. -/
theorem jp_sets_pc_witness :
    JP exampleCPU (mkInstruction .JP [imm16Operand 0x1234]) =
      .ok (4, { exampleCPU with Registers := { exampleCPU.Registers with PC := 0x1234 } }) ∧
    JP exampleCPU (mkInstruction .JP [condOperand .NZ, imm16Operand 0x1234]) =
      .ok (4, { exampleCPU with Registers := { exampleCPU.Registers with PC := 0x1234 } }) ∧
    JP exampleCPU (mkInstruction .JP [condOperand .Z, imm16Operand 0x1234]) =
      .ok (4, exampleCPU) ∧
    ({ exampleCPU with Registers := { exampleCPU.Registers with PC := 0x1234 } } :
      CPU).Registers.F = exampleCPU.Registers.F :=
  ⟨(jp_sets_pc exampleCPU (mkInstruction .JP [imm16Operand 0x1234])).1
      (imm16Operand 0x1234) 0x1234 rfl rfl,
   (jp_sets_pc exampleCPU (mkInstruction .JP [condOperand .NZ, imm16Operand 0x1234])).2.1
      (condOperand .NZ) (imm16Operand 0x1234) .NZ 0x1234 rfl rfl (by decide) rfl,
   (jp_sets_pc exampleCPU (mkInstruction .JP [condOperand .Z, imm16Operand 0x1234])).2.2.1
      (condOperand .Z) (imm16Operand 0x1234) .Z rfl rfl (by decide),
   ((jp_sets_pc exampleCPU (mkInstruction .JP [imm16Operand 0x1234])).2.2.2 4 _
      ((jp_sets_pc exampleCPU (mkInstruction .JP [imm16Operand 0x1234])).1
        (imm16Operand 0x1234) 0x1234 rfl rfl)).1⟩

/-! ## Claims on the 2-operand `LD` -/

/-- C8 at a failing input: with HL = 0xC000, A = 0x3C and all memory zero,
`LD (HL+), A` resolves its destination to the byte read at 0xC000, which is 0,
and writes A there: memory at 0xC000 still holds 0 and memory at 0x0000 holds
0x3C.  HL is 0xC001 afterwards, A and F are unchanged. -/
theorem ld_hl_inc_writes_at_resolved_value :
    hlCPU.Registers.Get .HL = 0xC000 ∧
    Resolve hlCPU hlIncOperand = .ok 0 ∧
    (∃ c2, LD hlCPU (mkInstruction .LD [hlIncOperand, regOperand .A]) = .ok (4, c2) ∧
      Read8 c2 0xC000 = 0 ∧
      Read8 c2 0x0000 = 0x3C ∧
      c2.Registers.Get .HL = 0xC001 ∧
      c2.Registers.A = 0x3C ∧
      c2.Registers.F = hlCPU.Registers.F) :=
  ⟨by decide, rfl,
   adjustHL (Write8 hlCPU 0 0x3C) [hlIncOperand, regOperand .A],
   rfl, by decide, by decide, by decide, by decide, by decide⟩

theorem get_set_HL (r : Registers) (v : Nat) :
    (r.Set .HL (v % 65536)).Get .HL = v % 65536 := by
  simp only [Registers.Set, Registers.Get]
  omega

theorem adjustHL_untagged (c : CPU) (op : Operand) (rest : List Operand)
    (h : op.Symbol ≠ .register .HL ∨ (op.Inc = false ∧ op.Dec = false)) :
    adjustHL c (op :: rest) = adjustHL c rest := by
  by_cases hs : op.Symbol ≠ .register .HL
  · rw [adjustHL, if_pos hs]
  · rcases h with h | ⟨hi, hd⟩
    · exact absurd h hs
    · rw [adjustHL, if_neg hs]
      simp [hi, hd]

theorem adjustHL_inc (c : CPU) (op : Operand) (rest : List Operand)
    (hs : op.Symbol = .register .HL) (hi : op.Inc = true) (hd : op.Dec = false) :
    adjustHL c (op :: rest) =
      adjustHL { c with Registers := c.Registers.Set .HL ((c.Registers.Get .HL + 1) % 65536) }
        rest := by
  rw [adjustHL, if_neg (by rw [hs]; simp)]
  simp [hi, hd]

theorem adjustHL_dec (c : CPU) (op : Operand) (rest : List Operand)
    (hs : op.Symbol = .register .HL) (hi : op.Inc = false) (hd : op.Dec = true) :
    adjustHL c (op :: rest) =
      adjustHL { c with Registers := c.Registers.Set .HL ((c.Registers.Get .HL + 65535) % 65536) }
        rest := by
  rw [adjustHL, if_neg (by rw [hs]; simp)]
  simp [hi, hd]

theorem LD_two (c c1 : CPU) (ins : Instruction) (dst src : Operand)
    (hops : ins.Operands = [dst, src]) (hmove : ldMove c dst src = .ok c1) :
    LD c ins = .ok (4, adjustHL c1 [dst, src]) := by
  simp only [LD, hops, hmove]

/-- C9 as stated fails: with both operands HL carrying the Inc tag the
adjustment is applied twice (HL is 0xC000 after the data move and 0xC002 after
the instruction), and with one operand carrying both tags HL goes down by one
(0xBFFF) although the operand carries the Inc tag. -/
theorem ld_adjusts_hl_twice :
    (∃ c1 c2,
      ldMove hlCPU hlIncOperand hlIncValueOperand = .ok c1 ∧
      LD hlCPU (mkInstruction .LD [hlIncOperand, hlIncValueOperand]) = .ok (4, c2) ∧
      c1.Registers.Get .HL = 0xC000 ∧
      c2.Registers.Get .HL = 0xC002 ∧
      c2.Registers.Get .HL ≠ (c1.Registers.Get .HL + 1) % 65536) ∧
    (∃ c1 c2,
      ldMove hlCPU hlIncDecOperand (regOperand .A) = .ok c1 ∧
      LD hlCPU (mkInstruction .LD [hlIncDecOperand, regOperand .A]) = .ok (4, c2) ∧
      c1.Registers.Get .HL = 0xC000 ∧
      c2.Registers.Get .HL = 0xBFFF ∧
      c2.Registers.Get .HL ≠ (c1.Registers.Get .HL + 1) % 65536) :=
  ⟨⟨Write16 hlCPU 0 0xC000,
    adjustHL (Write16 hlCPU 0 0xC000) [hlIncOperand, hlIncValueOperand],
    rfl, rfl, by decide, by decide, by decide⟩,
   ⟨Write8 hlCPU 0 0x3C,
    adjustHL (Write8 hlCPU 0 0x3C) [hlIncDecOperand, regOperand .A],
    rfl, rfl, by decide, by decide, by decide⟩⟩

/-- C9, amended: in a 2-operand `LD` whose data move succeeds, if one operand
(in either position) has symbol HL and carries exactly one of the tags Inc and
Dec, and the other operand is not a tagged HL operand, then the instruction
returns the state of the data move with HL replaced by its value after the data
move plus 1 (Inc) or minus 1 (Dec) modulo 2^16. -/
theorem ld_adjusts_hl_once (c c1 : CPU) (ins : Instruction) (dst src tagged other : Operand)
    (hops : ins.Operands = [dst, src])
    (hmove : ldMove c dst src = .ok c1)
    (hpos : (tagged = dst ∧ other = src) ∨ (tagged = src ∧ other = dst))
    (hsym : tagged.Symbol = .register .HL)
    (hother : other.Symbol ≠ .register .HL ∨ (other.Inc = false ∧ other.Dec = false)) :
    (tagged.Inc = true → tagged.Dec = false →
      LD c ins = .ok (4,
        { c1 with Registers := c1.Registers.Set .HL ((c1.Registers.Get .HL + 1) % 65536) }) ∧
      (c1.Registers.Set .HL ((c1.Registers.Get .HL + 1) % 65536)).Get .HL =
        (c1.Registers.Get .HL + 1) % 65536) ∧
    (tagged.Dec = true → tagged.Inc = false →
      LD c ins = .ok (4,
        { c1 with Registers := c1.Registers.Set .HL ((c1.Registers.Get .HL + 65535) % 65536) }) ∧
      (c1.Registers.Set .HL ((c1.Registers.Get .HL + 65535) % 65536)).Get .HL =
        (c1.Registers.Get .HL + 65535) % 65536) := by
  rw [LD_two c c1 ins dst src hops hmove]
  constructor
  · intro hi hd
    refine ⟨?_, get_set_HL _ _⟩
    rcases hpos with ⟨rfl, rfl⟩ | ⟨rfl, rfl⟩
    · rw [adjustHL_inc c1 tagged _ hsym hi hd, adjustHL_untagged _ other _ hother]
      rfl
    · rw [adjustHL_untagged c1 other _ hother, adjustHL_inc c1 tagged _ hsym hi hd]
      rfl
  · intro hd hi
    refine ⟨?_, get_set_HL _ _⟩
    rcases hpos with ⟨rfl, rfl⟩ | ⟨rfl, rfl⟩
    · rw [adjustHL_dec c1 tagged _ hsym hi hd, adjustHL_untagged _ other _ hother]
      rfl
    · rw [adjustHL_untagged c1 other _ hother, adjustHL_dec c1 tagged _ hsym hi hd]
      rfl

/-- C9, amended, at HL = 0xC000: `LD (HL+), A` and `LD A, (HL+)` leave
HL = 0xC001, `LD (HL-), A` leaves HL = 0xBFFF. -/
theorem ld_adjusts_hl_once_witness :
    (LD hlCPU (mkInstruction .LD [hlIncOperand, regOperand .A]) =
        .ok (4,
          { hlStoredCPU with
            Registers := hlStoredCPU.Registers.Set .HL
              ((hlStoredCPU.Registers.Get .HL + 1) % 65536) }) ∧
      (hlStoredCPU.Registers.Set .HL ((hlStoredCPU.Registers.Get .HL + 1) % 65536)).Get .HL =
        (hlStoredCPU.Registers.Get .HL + 1) % 65536) ∧
    (LD hlCPU (mkInstruction .LD [regOperand .A, hlIncOperand]) =
        .ok (4,
          { hlLoadedCPU with
            Registers := hlLoadedCPU.Registers.Set .HL
              ((hlLoadedCPU.Registers.Get .HL + 1) % 65536) }) ∧
      (hlLoadedCPU.Registers.Set .HL ((hlLoadedCPU.Registers.Get .HL + 1) % 65536)).Get .HL =
        (hlLoadedCPU.Registers.Get .HL + 1) % 65536) ∧
    (LD hlCPU (mkInstruction .LD [hlDecOperand, regOperand .A]) =
        .ok (4,
          { hlStoredCPU with
            Registers := hlStoredCPU.Registers.Set .HL
              ((hlStoredCPU.Registers.Get .HL + 65535) % 65536) }) ∧
      (hlStoredCPU.Registers.Set .HL ((hlStoredCPU.Registers.Get .HL + 65535) % 65536)).Get .HL =
        (hlStoredCPU.Registers.Get .HL + 65535) % 65536) ∧
    (hlStoredCPU.Registers.Get .HL + 1) % 65536 = 0xC001 ∧
    (hlLoadedCPU.Registers.Get .HL + 1) % 65536 = 0xC001 ∧
    (hlStoredCPU.Registers.Get .HL + 65535) % 65536 = 0xBFFF :=
  ⟨(ld_adjusts_hl_once hlCPU hlStoredCPU
      (mkInstruction .LD [hlIncOperand, regOperand .A]) hlIncOperand (regOperand .A)
      hlIncOperand (regOperand .A) rfl rfl (Or.inl ⟨rfl, rfl⟩) rfl
      (Or.inl (by decide))).1 rfl rfl,
   (ld_adjusts_hl_once hlCPU hlLoadedCPU
      (mkInstruction .LD [regOperand .A, hlIncOperand]) (regOperand .A) hlIncOperand
      hlIncOperand (regOperand .A) rfl rfl (Or.inr ⟨rfl, rfl⟩) rfl
      (Or.inl (by decide))).1 rfl rfl,
   (ld_adjusts_hl_once hlCPU hlStoredCPU
      (mkInstruction .LD [hlDecOperand, regOperand .A]) hlDecOperand (regOperand .A)
      hlDecOperand (regOperand .A) rfl rfl (Or.inl ⟨rfl, rfl⟩) rfl
      (Or.inl (by decide))).2 rfl rfl,
   by decide, by decide, by decide⟩

/-! ## Claims on the 3-operand `LD` -/

theorem ldSPr8_F (c : CPU) (r8 : Nat) :
    (ldSPr8 c r8).Registers.F =
      (((if (c.Registers.SP &&& 0xFF) + (r8 &&& 0xFF) > 0xFF then
          (if (c.Registers.SP &&& 0xF) + (r8 &&& 0xF) > 0xF then
            c.Registers.SetFlag .FlagH else c.Registers).SetFlag .FlagC
        else
          (if (c.Registers.SP &&& 0xF) + (r8 &&& 0xF) > 0xF then
            c.Registers.SetFlag .FlagH else c.Registers)).ClearFlag .FlagZ).ClearFlag
              .FlagN).F := by
  simp only [ldSPr8, Registers.SetHL, Registers.Set, decide_eq_true_eq]

theorem ldSPr8_SP (c : CPU) (r8 : Nat) :
    (ldSPr8 c r8).Registers.SP = c.Registers.SP := by
  simp only [ldSPr8, Registers.SetHL, Registers.Set]
  split <;> split <;> rfl

/-- C10, amended: the 3-operand `LD` with operand 2 resolving to `r8` returns
with H = (H before or `(SP & 0xF) + (r8 & 0xF) > 0xF`),
C = (C before or `(SP & 0xFF) + (r8 & 0xFF) > 0xFF`), Z and N cleared and SP
unchanged. -/
theorem ld_sp_r8_flags (c : CPU) (ins : Instruction) (op0 op1 op2 : Operand) (r8 : Nat)
    (hops : ins.Operands = [op0, op1, op2]) (hres : Resolve c op2 = .ok r8) :
    LD c ins = .ok (4, ldSPr8 c r8) ∧
    (ldSPr8 c r8).Registers.TestFlag .FlagH =
      (c.Registers.TestFlag .FlagH ||
        decide ((c.Registers.SP &&& 0xF) + (r8 &&& 0xF) > 0xF)) ∧
    (ldSPr8 c r8).Registers.TestFlag .FlagC =
      (c.Registers.TestFlag .FlagC ||
        decide ((c.Registers.SP &&& 0xFF) + (r8 &&& 0xFF) > 0xFF)) ∧
    (ldSPr8 c r8).Registers.TestFlag .FlagZ = false ∧
    (ldSPr8 c r8).Registers.TestFlag .FlagN = false ∧
    (ldSPr8 c r8).Registers.SP = c.Registers.SP := by
  refine ⟨?_, ?_, ?_, ?_, ?_, ldSPr8_SP c r8⟩
  · simp only [LD, hops, hres]
  · rw [testFlag_congr _ _ _ (ldSPr8_F c r8)]
    by_cases hH : (c.Registers.SP &&& 0xF) + (r8 &&& 0xF) > 0xF <;>
      by_cases hC : (c.Registers.SP &&& 0xFF) + (r8 &&& 0xFF) > 0xFF <;>
      simp [hH, hC, testFlag_clearFlag, testFlag_setFlag]
  · rw [testFlag_congr _ _ _ (ldSPr8_F c r8)]
    by_cases hH : (c.Registers.SP &&& 0xF) + (r8 &&& 0xF) > 0xF <;>
      by_cases hC : (c.Registers.SP &&& 0xFF) + (r8 &&& 0xFF) > 0xFF <;>
      simp [hH, hC, testFlag_clearFlag, testFlag_setFlag]
  · rw [testFlag_congr _ _ _ (ldSPr8_F c r8)]
    simp [testFlag_clearFlag]
  · rw [testFlag_congr _ _ _ (ldSPr8_F c r8)]
    simp [testFlag_clearFlag]

/-- C10 as stated fails at its own example: with SP = 0x00FF, r8 = 1 and H and
C clear, `(0xFF + 0x01 > 0xFF)` holds, so `LD HL, SP+r8` leaves C set; the
outcome "H set, C not set, Z and N clear" is not the one of the code. -/
theorem ld_sp_r8_example_sets_carry :
    spCPU.Registers.SP = 0x00FF ∧
    Resolve spCPU (r8Operand 1) = .ok 1 ∧
    spCPU.Registers.TestFlag .FlagH = false ∧
    spCPU.Registers.TestFlag .FlagC = false ∧
    LD spCPU (ldHLSPr8 1) = .ok (4, ldSPr8 spCPU 1) ∧
    (ldSPr8 spCPU 1).Registers.TestFlag .FlagC = true ∧
    ¬ ((ldSPr8 spCPU 1).Registers.TestFlag .FlagH = true ∧
       (ldSPr8 spCPU 1).Registers.TestFlag .FlagC = false ∧
       (ldSPr8 spCPU 1).Registers.TestFlag .FlagZ = false ∧
       (ldSPr8 spCPU 1).Registers.TestFlag .FlagN = false) :=
  ⟨rfl, rfl, by decide, by decide, rfl, by decide, by decide⟩

/-- C10, amended, at the spec's example: SP = 0x00FF, r8 = 1, H and C clear
give H set and C set, Z and N clear, SP still 0x00FF (and HL = 0x0100). -/
theorem ld_sp_r8_flags_witness :
    ((ldHLSPr8 1).Operands =
        [{ Symbol := .register .HL, Deref := false, Bits16 := true, Inc := false, Dec := false },
         { Symbol := .register .SP, Deref := false, Bits16 := true, Inc := true, Dec := false },
         r8Operand 1] ∧
      Resolve spCPU (r8Operand 1) = .ok 1) ∧
    (LD spCPU (ldHLSPr8 1) = .ok (4, ldSPr8 spCPU 1) ∧
      (ldSPr8 spCPU 1).Registers.TestFlag .FlagH =
        (spCPU.Registers.TestFlag .FlagH ||
          decide ((spCPU.Registers.SP &&& 0xF) + (1 &&& 0xF) > 0xF)) ∧
      (ldSPr8 spCPU 1).Registers.TestFlag .FlagC =
        (spCPU.Registers.TestFlag .FlagC ||
          decide ((spCPU.Registers.SP &&& 0xFF) + (1 &&& 0xFF) > 0xFF)) ∧
      (ldSPr8 spCPU 1).Registers.TestFlag .FlagZ = false ∧
      (ldSPr8 spCPU 1).Registers.TestFlag .FlagN = false ∧
      (ldSPr8 spCPU 1).Registers.SP = spCPU.Registers.SP) ∧
    (ldSPr8 spCPU 1).Registers.TestFlag .FlagH = true ∧
    (ldSPr8 spCPU 1).Registers.TestFlag .FlagC = true ∧
    (ldSPr8 spCPU 1).Registers.F = 0x30 ∧
    (ldSPr8 spCPU 1).Registers.Get .HL = 0x0100 :=
  ⟨⟨rfl, rfl⟩,
   ld_sp_r8_flags spCPU (ldHLSPr8 1) _ _ (r8Operand 1) 1 rfl rfl,
   by decide, by decide, by decide, by decide⟩

theorem ldSPr8_HL (c : CPU) (r8 : Nat) :
    (ldSPr8 c r8).Registers.Get .HL = (c.Registers.SP + r8) % 65536 := by
  have h : (ldSPr8 c r8).Registers.Get .HL =
      ((ldSPr8 c r8).Registers.SP + r8) % 65536 := by
    simp only [ldSPr8, Registers.SetHL]
    rw [get_set_HL]
    simp only [Registers.Set]
  rw [h, ldSPr8_SP]

/-- C11: for every SP and every signed 8-bit displacement given by the
immediate byte `b` of operand 2 (0x00..0x7F for 0..127, 0x80..0xFF for
-128..-1), the 3-operand `LD` returns with HL = (SP + r8) mod 2^16, the addition
being signed; a negative displacement that does not wrap leaves HL below SP by
its magnitude. -/
theorem ld_sp_r8_signed (c : CPU) (ins : Instruction) (op0 op1 op2 : Operand) (b : Nat)
    (hb : b < 256) (hops : ins.Operands = [op0, op1, op2])
    (hsym : op2.Symbol = .signed8 b) (hderef : op2.Deref = false) :
    LD c ins = .ok (4, ldSPr8 c (signExtend8 b)) ∧
    (-128 ≤ toSigned8 b ∧ toSigned8 b ≤ 127) ∧
    (((ldSPr8 c (signExtend8 b)).Registers.Get .HL : Nat) : Int) =
      ((c.Registers.SP : Int) + toSigned8 b) % 65536 ∧
    (128 ≤ b → 256 - b ≤ c.Registers.SP → c.Registers.SP < 65536 →
      (ldSPr8 c (signExtend8 b)).Registers.Get .HL + (256 - b) = c.Registers.SP) := by
  have hres : Resolve c op2 = .ok (signExtend8 b) := by
    simp [Resolve, hsym, hderef]
  refine ⟨?_, ?_, ?_, ?_⟩
  · simp only [LD, hops, hres]
  · unfold toSigned8
    split <;> omega
  · rw [ldSPr8_HL]
    unfold signExtend8 toSigned8
    rw [Nat.mod_eq_of_lt hb]
    split <;> push_cast <;> omega
  · intro h1 h2 h3
    rw [ldSPr8_HL]
    unfold signExtend8
    rw [Nat.mod_eq_of_lt hb]
    split <;> omega

/-- The examples of C11: SP = 0x0100 with the byte 0xFF (r8 = -1) gives
HL = 0x00FF, and SP = 0x00FF with r8 = 1 gives HL = 0x0100. -/
theorem ld_sp_r8_signed_witness :
    (LD sp100CPU (ldHLSPr8 0xFF) = .ok (4, ldSPr8 sp100CPU (signExtend8 0xFF)) ∧
      (-128 ≤ toSigned8 0xFF ∧ toSigned8 0xFF ≤ 127) ∧
      (((ldSPr8 sp100CPU (signExtend8 0xFF)).Registers.Get .HL : Nat) : Int) =
        ((sp100CPU.Registers.SP : Int) + toSigned8 0xFF) % 65536 ∧
      (128 ≤ 0xFF → 256 - 0xFF ≤ sp100CPU.Registers.SP → sp100CPU.Registers.SP < 65536 →
        (ldSPr8 sp100CPU (signExtend8 0xFF)).Registers.Get .HL + (256 - 0xFF) =
          sp100CPU.Registers.SP)) ∧
    toSigned8 0xFF = -1 ∧
    sp100CPU.Registers.SP = 0x0100 ∧
    (ldSPr8 sp100CPU (signExtend8 0xFF)).Registers.Get .HL = 0x00FF ∧
    (LD spCPU (ldHLSPr8 1) = .ok (4, ldSPr8 spCPU (signExtend8 1)) ∧
      (ldSPr8 spCPU (signExtend8 1)).Registers.Get .HL = 0x0100) :=
  ⟨ld_sp_r8_signed sp100CPU (ldHLSPr8 0xFF) _ _ (r8Operand 0xFF) 0xFF (by decide) rfl rfl rfl,
   by decide, rfl, by decide,
   (ld_sp_r8_signed spCPU (ldHLSPr8 1) _ _ (r8Operand 1) 1 (by decide) rfl rfl rfl).1,
   by decide⟩

/-! ## Claims on the register destination of `LD` -/

theorem adjustHL_nil (c : CPU) : adjustHL c [] = c := rfl

theorem ldMove_register (c : CPU) (dst src : Operand) (reg : Register) (v : Nat)
    (hsym : dst.Symbol = .register reg) (hderef : dst.Deref = false)
    (hres : Resolve c src = .ok v) :
    ldMove c dst src = .ok { c with Registers := c.Registers.Set reg v } := by
  have hd : dst.IsData = false := by simp [Operand.IsData, hsym]
  simp [ldMove, hres, hd, hderef, hsym]

/-- C12 as stated fails: `LD BC, (HL+)` changes L besides B and C, because the
HL+ tag of the source is applied after the move. -/
theorem ld_pair_changes_other_registers :
    ∃ c2, LD hlCPU (mkInstruction .LD [pairOperand .BC, hlIncOperand]) = .ok (4, c2) ∧
      hlCPU.Registers.L = 0x00 ∧
      c2.Registers.L = 0x01 ∧
      c2.Registers.L ≠ hlCPU.Registers.L :=
  ⟨adjustHL { hlCPU with Registers := hlCPU.Registers.Set .BC 0 }
      [pairOperand .BC, hlIncOperand],
    rfl, by decide, by decide, by decide⟩

/-- C12, amended: a 2-operand `LD` whose destination is one of the register
pairs BC, DE and HL, not dereferenced, whose source resolves to the 16-bit value
`v` and in which no operand is an HL operand carrying a tag, returns the initial
state with the high half of the pair set to `v >> 8` and the low half to
`v & 0xFF`; every other register, the flags and memory are unchanged. -/
theorem ld_pair_bytes (c : CPU) (ins : Instruction) (dst src : Operand) (v : Nat)
    (hops : ins.Operands = [dst, src])
    (hderef : dst.Deref = false)
    (hres : Resolve c src = .ok v) (hv : v < 65536)
    (hdst : dst.Symbol ≠ .register .HL ∨ (dst.Inc = false ∧ dst.Dec = false))
    (hsrc : src.Symbol ≠ .register .HL ∨ (src.Inc = false ∧ src.Dec = false)) :
    (dst.Symbol = .register .BC →
      LD c ins = .ok (4,
        { c with Registers := { c.Registers with B := v / 256, C := v % 256 } })) ∧
    (dst.Symbol = .register .DE →
      LD c ins = .ok (4,
        { c with Registers := { c.Registers with D := v / 256, E := v % 256 } })) ∧
    (dst.Symbol = .register .HL →
      LD c ins = .ok (4,
        { c with Registers := { c.Registers with H := v / 256, L := v % 256 } })) := by
  have hhi : v / 256 % 256 = v / 256 := by omega
  have key : ∀ reg, dst.Symbol = .register reg →
      LD c ins = .ok (4, { c with Registers := c.Registers.Set reg v }) := by
    intro reg hsym
    rw [LD_two c _ ins dst src hops (ldMove_register c dst src reg v hsym hderef hres),
      adjustHL_untagged _ dst _ hdst, adjustHL_untagged _ src _ hsrc, adjustHL_nil]
  refine ⟨?_, ?_, ?_⟩ <;> intro hsym <;> rw [key _ hsym] <;>
    simp only [Registers.Set, hhi]

/-- The spec's example of C12: `LD BC, 0x1234` gives B = 0x12 and C = 0x34. -/
theorem ld_pair_bytes_witness :
    LD exampleCPU (mkInstruction .LD [pairOperand .BC, imm16Operand 0x1234]) =
      .ok (4,
        { exampleCPU with
          Registers := { exampleCPU.Registers with B := 0x1234 / 256, C := 0x1234 % 256 } }) ∧
    (0x1234 / 256 = 0x12 ∧ 0x1234 % 256 = 0x34) :=
  ⟨(ld_pair_bytes exampleCPU (mkInstruction .LD [pairOperand .BC, imm16Operand 0x1234])
      (pairOperand .BC) (imm16Operand 0x1234) 0x1234 rfl rfl rfl (by decide)
      (Or.inl (by decide)) (Or.inl (by decide))).1 rfl,
   by decide⟩

/-! ## Claims on the memory destination of `LD` -/

/-- C13 at a failing input: with the byte 0x34 at 0xC000 and A = 0x3C,
`LD (0xC000), A` resolves its destination to the byte read at 0xC000 and writes
A at 0x0034: the byte at the destination address 0xC000 is still 0x34.  The
width is the one of the source (one byte is written), and no register
changes. -/
theorem ld_memory_writes_at_resolved_value :
    Read8 memCPU 0xC000 = 0x34 ∧
    Read8 memCPU 0x0034 = 0x00 ∧
    Resolve memCPU (addrOperand 0xC000) = .ok 0x34 ∧
    (∃ c2, LD memCPU (mkInstruction .LD [addrOperand 0xC000, regOperand .A]) = .ok (4, c2) ∧
      Read8 c2 0xC000 = 0x34 ∧
      Read8 c2 0xC000 ≠ memCPU.Registers.A ∧
      Read8 c2 0x0034 = 0x3C ∧
      c2.Registers = memCPU.Registers) :=
  ⟨by decide, by decide, rfl,
   adjustHL (Write8 memCPU 0x34 0x3C) [addrOperand 0xC000, regOperand .A],
   rfl, by decide, by decide, by decide, by decide⟩

/-! ## Claims on `INC` and `DEC` -/

theorem INC_register (c : CPU) (ins : Instruction) (op : Operand) (rest : List Operand)
    (r : Register) (hops : ins.Operands = op :: rest) (hsym : op.Symbol = .register r) :
    INC c ins =
      .ok (4, { c with Registers := c.Registers.Set r ((c.Registers.Get r + 1) % 65536) }) := by
  simp only [INC, hops, hsym]

theorem DEC_register (c : CPU) (ins : Instruction) (op : Operand) (rest : List Operand)
    (r : Register) (hops : ins.Operands = op :: rest) (hsym : op.Symbol = .register r) :
    DEC c ins =
      .ok (4, { c with Registers := c.Registers.Set r ((c.Registers.Get r + 65535) % 65536) }) := by
  simp only [DEC, hops, hsym]

theorem pow_width (r : Register) : 2 ^ r.width = 256 ∨ 2 ^ r.width = 65536 := by
  cases r <;> simp [Register.width]

theorem get_set_same (rs : Registers) (r : Register) (v : Nat)
    (hF : r ≠ .F) (hAF : r ≠ .AF) :
    (rs.Set r v).Get r = v % 2 ^ r.width := by
  cases r <;> first
    | exact absurd rfl hF
    | exact absurd rfl hAF
    | (simp only [Registers.Set, Registers.Get, Register.width]; norm_num; try omega)

theorem get_lt_width (c : CPU) (hwf : c.WF) (r : Register) :
    c.Registers.Get r < 2 ^ r.width := by
  obtain ⟨h1, h2, h3, h4, h5, h6, h7, h8, h9, h10, -, -⟩ := hwf
  cases r <;> simp only [Registers.Get, Register.width] <;> norm_num <;> omega

theorem get_set_other (rs : Registers) (r q : Register) (v : Nat)
    (h : ∀ x ∈ q.cells, x ∉ r.cells) :
    (rs.Set r v).Get q = rs.Get q := by
  cases r <;> cases q <;>
    first
    | (exfalso; revert h; simp [Register.cells]; done)
    | simp only [Registers.Set, Registers.Get]

theorem set_set_restore (c : CPU) (hwf : c.WF) (r : Register) (a b : Nat)
    (hF : r ≠ .F) (hAF : r ≠ .AF)
    (hb : b % 2 ^ r.width = c.Registers.Get r) :
    (c.Registers.Set r a).Set r b = c.Registers := by
  obtain ⟨⟨rA, rF, rB, rC, rD, rE, rH, rL, rSP, rPC⟩, iF, iE, ime, halted, mem⟩ := c
  obtain ⟨h1, h2, h3, h4, h5, h6, h7, h8, h9, h10, -, -⟩ := hwf
  simp only at h1 h2 h3 h4 h5 h6 h7 h8 h9 h10
  cases r <;> first
    | exact absurd rfl hF
    | exact absurd rfl hAF
    | (simp only [Registers.Get, Register.width] at hb; norm_num at hb
       simp only [Registers.Set, Registers.mk.injEq, true_and, and_true]
       omega)

/-- C14 as stated fails for the flag register: `DEC F` and `DEC AF` change the
flags; with only Z set, both leave Z clear and C set. -/
theorem dec_flag_register_changes_flags :
    (∃ c2, DEC zeroFlagCPU (mkInstruction .DEC [regOperand .F]) = .ok (4, c2) ∧
      zeroFlagCPU.Registers.TestFlag .FlagZ = true ∧
      zeroFlagCPU.Registers.TestFlag .FlagC = false ∧
      c2.Registers.TestFlag .FlagZ = false ∧
      c2.Registers.TestFlag .FlagC = true) ∧
    (∃ c2, DEC zeroFlagCPU (mkInstruction .DEC [pairOperand .AF]) = .ok (4, c2) ∧
      c2.Registers.TestFlag .FlagZ = false ∧
      c2.Registers.TestFlag .FlagC = true) :=
  ⟨⟨{ zeroFlagCPU with Registers := zeroFlagCPU.Registers.Set .F 0x7F },
    rfl, by decide, by decide, by decide, by decide⟩,
   ⟨{ zeroFlagCPU with Registers := zeroFlagCPU.Registers.Set .AF 0x3C7F },
    rfl, by decide, by decide⟩⟩

/-- C14, amended: in every state of bytes and words and for every named
register `r` other than F and AF, `INC` with operand `r` leaves
`r = (r0 + 1) mod 2^width(r)` and `DEC` leaves `r = (r0 - 1) mod 2^width(r)`,
`DEC` after `INC` restores the state, and neither changes the flags, any
register whose storage is disjoint from that of `r`, memory, IF, IE, IME or
IsHalted. -/
theorem inc_dec_register (c : CPU) (hwf : c.WF) (ins : Instruction) (op : Operand)
    (rest : List Operand) (r : Register)
    (hops : ins.Operands = op :: rest) (hsym : op.Symbol = .register r)
    (hF : r ≠ .F) (hAF : r ≠ .AF) :
    ∃ ci cd,
      INC c ins = .ok (4, ci) ∧ DEC c ins = .ok (4, cd) ∧
      ci.Registers.Get r = (c.Registers.Get r + 1) % 2 ^ r.width ∧
      cd.Registers.Get r = (c.Registers.Get r + 2 ^ r.width - 1) % 2 ^ r.width ∧
      DEC ci ins = .ok (4, c) ∧
      (∀ q : Register, (∀ x ∈ q.cells, x ∉ r.cells) →
        ci.Registers.Get q = c.Registers.Get q ∧ cd.Registers.Get q = c.Registers.Get q) ∧
      (ci.Registers.F = c.Registers.F ∧ cd.Registers.F = c.Registers.F) ∧
      (∀ f : Flag, ci.Registers.TestFlag f = c.Registers.TestFlag f ∧
        cd.Registers.TestFlag f = c.Registers.TestFlag f) ∧
      ci.Memory = c.Memory ∧ cd.Memory = c.Memory ∧
      ci.IF = c.IF ∧ cd.IF = c.IF ∧ ci.IE = c.IE ∧ cd.IE = c.IE ∧
      ci.IME = c.IME ∧ cd.IME = c.IME ∧ ci.IsHalted = c.IsHalted ∧ cd.IsHalted = c.IsHalted := by
  have hlt := get_lt_width c hwf r
  have hw := pow_width r
  have hq : ∀ x ∈ Register.F.cells, x ∉ r.cells := by
    cases r <;> simp [Register.cells] at hF hAF ⊢
  have hFi : (c.Registers.Set r ((c.Registers.Get r + 1) % 65536)).F = c.Registers.F :=
    get_set_other _ r .F _ hq
  have hFd : (c.Registers.Set r ((c.Registers.Get r + 65535) % 65536)).F = c.Registers.F :=
    get_set_other _ r .F _ hq
  refine ⟨_, _, INC_register c ins op rest r hops hsym, DEC_register c ins op rest r hops hsym,
    ?_, ?_, ?_, ?_, ⟨hFi, hFd⟩, ?_, rfl, rfl, rfl, rfl, rfl, rfl, rfl, rfl, rfl, rfl⟩
  · show (c.Registers.Set r _).Get r = _
    rw [get_set_same _ _ _ hF hAF]
    rcases hw with h | h <;> rw [h] at hlt ⊢ <;> omega
  · show (c.Registers.Set r _).Get r = _
    rw [get_set_same _ _ _ hF hAF]
    rcases hw with h | h <;> rw [h] at hlt ⊢ <;> omega
  · rw [DEC_register _ ins op rest r hops hsym]
    have hget : (c.Registers.Set r ((c.Registers.Get r + 1) % 65536)).Get r =
        (c.Registers.Get r + 1) % 65536 % 2 ^ r.width := get_set_same _ _ _ hF hAF
    have hrestore := set_set_restore c hwf r ((c.Registers.Get r + 1) % 65536)
      (((c.Registers.Get r + 1) % 65536 % 2 ^ r.width + 65535) % 65536) hF hAF
      (by rcases hw with h | h <;> rw [h] at hlt ⊢ <;> omega)
    simp only [hget, hrestore]
  · intro q hq2
    exact ⟨get_set_other _ r q _ hq2, get_set_other _ r q _ hq2⟩
  · intro f
    exact ⟨testFlag_congr _ _ f hFi, testFlag_congr _ _ f hFd⟩

/-- C14, amended, at a register holding its top value: with B = 0xFF `INC B`
gives 0x00 and `DEC B` then gives 0xFF again. -/
theorem inc_dec_register_witness :
    ({ exampleCPU with Registers := { exampleCPU.Registers with B := 0xFF } } : CPU).WF ∧
    (∃ ci cd,
      INC { exampleCPU with Registers := { exampleCPU.Registers with B := 0xFF } }
        (mkInstruction .INC [regOperand .B]) = .ok (4, ci) ∧
      DEC { exampleCPU with Registers := { exampleCPU.Registers with B := 0xFF } }
        (mkInstruction .INC [regOperand .B]) = .ok (4, cd) ∧
      ci.Registers.Get .B = (0xFF + 1) % 2 ^ Register.B.width ∧
      cd.Registers.Get .B = (0xFF + 2 ^ Register.B.width - 1) % 2 ^ Register.B.width ∧
      DEC ci (mkInstruction .INC [regOperand .B]) =
        .ok (4, { exampleCPU with Registers := { exampleCPU.Registers with B := 0xFF } })) ∧
    (0xFF + 1) % 2 ^ Register.B.width = 0x00 :=
  ⟨by decide,
   (inc_dec_register { exampleCPU with Registers := { exampleCPU.Registers with B := 0xFF } }
      (by decide) (mkInstruction .INC [regOperand .B]) (regOperand .B) [] .B rfl rfl
      (by decide) (by decide)).imp
      (fun _ h => h.imp (fun _ h2 => ⟨h2.1, h2.2.1, h2.2.2.1, h2.2.2.2.1, h2.2.2.2.2.1⟩)),
   by decide⟩

/-! ## Claims on `Process`, `NOP`, `DI` and `EI` -/

/-- C15 at a failing input: `Process` has no case for INC and DEC.  On `INC B`
and `DEC B` it panics with "instruction not implemented" in the initial state,
while the handlers `INC` and `DEC` return 4 ticks with B = 0x01 and B = 0xFF.
For NOP, JP, DI, EI, XOR and LD `Process` is the handler, and any other mnemonic
panics in the initial state. -/
theorem process_skips_inc_dec :
    Process exampleCPU (mkInstruction .INC [regOperand .B]) =
      .error (.notImplemented, exampleCPU) ∧
    INC exampleCPU (mkInstruction .INC [regOperand .B]) =
      .ok (4, { exampleCPU with Registers := exampleCPU.Registers.Set .B 0x01 }) ∧
    Process exampleCPU (mkInstruction .DEC [regOperand .B]) =
      .error (.notImplemented, exampleCPU) ∧
    DEC exampleCPU (mkInstruction .DEC [regOperand .B]) =
      .ok (4, { exampleCPU with Registers := exampleCPU.Registers.Set .B 0xFF }) ∧
    (∀ (c : CPU) (ins : Instruction),
      (ins.Mnemonic = .NOP → Process c ins = NOP c ins) ∧
      (ins.Mnemonic = .JP → Process c ins = JP c ins) ∧
      (ins.Mnemonic = .DI → Process c ins = DI c ins) ∧
      (ins.Mnemonic = .EI → Process c ins = EI c ins) ∧
      (ins.Mnemonic = .XOR → Process c ins = XOR c ins) ∧
      (ins.Mnemonic = .LD → Process c ins = LD c ins) ∧
      (∀ n, ins.Mnemonic = .OTHER n → Process c ins = .error (.notImplemented, c))) := by
  refine ⟨rfl, rfl, rfl, rfl, ?_⟩
  intro c ins
  refine ⟨?_, ?_, ?_, ?_, ?_, ?_, ?_⟩ <;> intros <;> simp only [Process, *]

/-- C16 as stated fails: the descriptor of `JP a16` records 16 cycles and
`Process` returns 4 ticks. -/
theorem process_ignores_cycle_cost :
    jpA16.Cycles = 16 ∧
    Process exampleCPU jpA16 =
      .ok (4, { exampleCPU with Registers := { exampleCPU.Registers with PC := 0x1234 } }) ∧
    (4 : Nat) ≠ jpA16.Cycles :=
  ⟨rfl, rfl, by decide⟩

/-- C16, amended: whenever `Process` returns, the number of ticks is 4,
whatever the instruction, its recorded cycle cost, the CPU state and the
control flow taken. -/
theorem process_ticks (c : CPU) (ins : Instruction) (t : Nat) (c2 : CPU)
    (h : Process c ins = .ok (t, c2)) : t = 4 := by
  unfold Process at h
  split at h
  · simp only [NOP, Except.ok.injEq, Prod.mk.injEq] at h
    exact h.1.symm
  · unfold JP at h
    split at h
    · simp at h
    · split at h
      · simp only [Except.ok.injEq, Prod.mk.injEq] at h
        exact h.1.symm
      · simp at h
    · split at h
      · split at h
        · split at h
          · simp only [Except.ok.injEq, Prod.mk.injEq] at h
            exact h.1.symm
          · simp at h
        · simp only [Except.ok.injEq, Prod.mk.injEq] at h
          exact h.1.symm
      · simp at h
  · simp only [DI, Except.ok.injEq, Prod.mk.injEq] at h
    exact h.1.symm
  · simp only [EI, Except.ok.injEq, Prod.mk.injEq] at h
    exact h.1.symm
  · unfold XOR at h
    split at h
    · simp at h
    · split at h
      · simp only [Except.ok.injEq, Prod.mk.injEq] at h
        exact h.1.symm
      · simp at h
  · unfold LD at h
    split at h
    · split at h
      · simp only [Except.ok.injEq, Prod.mk.injEq] at h
        exact h.1.symm
      · simp at h
    · split at h
      · simp only [Except.ok.injEq, Prod.mk.injEq] at h
        exact h.1.symm
      · simp at h
    · simp at h
  · simp at h

/-- C16, amended, at the example state (Z clear): `JP NZ, 0x1234` (taken) and
`JP Z, 0x1234` (not taken) both return, and both return 4 ticks. -/
theorem process_ticks_witness :
    (Process exampleCPU (mkInstruction .JP [condOperand .NZ, imm16Operand 0x1234]) =
        .ok (4, { exampleCPU with Registers := { exampleCPU.Registers with PC := 0x1234 } }) ∧
      Process exampleCPU (mkInstruction .JP [condOperand .Z, imm16Operand 0x1234]) =
        .ok (4, exampleCPU)) ∧
    ((4 : Nat) = 4 ∧ (4 : Nat) = 4) :=
  ⟨⟨rfl, rfl⟩,
   process_ticks exampleCPU (mkInstruction .JP [condOperand .NZ, imm16Operand 0x1234]) 4
     { exampleCPU with Registers := { exampleCPU.Registers with PC := 0x1234 } } rfl,
   process_ticks exampleCPU (mkInstruction .JP [condOperand .Z, imm16Operand 0x1234]) 4
     exampleCPU rfl⟩

/-- C17: in every state `DI` returns the state with IME false and `EI` the
state with IME true, everything else (the registers with F, PC and SP, IF, IE,
IsHalted and memory) being as before; `NOP` returns the state unchanged.  The
same holds through `Process`. -/
theorem di_ei_nop_frame (c : CPU) (ins : Instruction) :
    DI c ins = .ok (4, { c with IME := false }) ∧
    EI c ins = .ok (4, { c with IME := true }) ∧
    NOP c ins = .ok (4, c) ∧
    (∀ b : Bool,
      ({ c with IME := b } : CPU).IME = b ∧
      ({ c with IME := b } : CPU).Registers = c.Registers ∧
      ({ c with IME := b } : CPU).IF = c.IF ∧
      ({ c with IME := b } : CPU).IE = c.IE ∧
      ({ c with IME := b } : CPU).IsHalted = c.IsHalted ∧
      ({ c with IME := b } : CPU).Memory = c.Memory) ∧
    Process c { ins with Mnemonic := .DI } = .ok (4, { c with IME := false }) ∧
    Process c { ins with Mnemonic := .EI } = .ok (4, { c with IME := true }) ∧
    Process c { ins with Mnemonic := .NOP } = .ok (4, c) :=
  ⟨rfl, rfl, rfl, fun _ => ⟨rfl, rfl, rfl, rfl, rfl, rfl⟩, rfl, rfl, rfl⟩

/-! ## Claims on operand-shape failures -/

theorem resolve_condition (c : CPU) (op : Operand) (h : op.IsCondition = true) :
    Resolve c op = .error .operandShape := by
  unfold Operand.IsCondition at h
  unfold Resolve
  split at h <;> simp_all

theorem resolve_ok (c : CPU) (op : Operand) (h : op.IsCondition = false) :
    ∃ v, Resolve c op = .ok v := by
  unfold Operand.IsCondition at h
  unfold Resolve
  split <;> first | (split <;> exact ⟨_, rfl⟩) | exact ⟨_, rfl⟩ | simp_all

/-- C18 as stated fails: `JP` without operand and `JP` whose single operand is
a condition code are none of the listed wrong shapes, and the handler fails on
both (index out of range, and the operand cannot be resolved). -/
theorem jp_fails_outside_listed_shapes :
    listedWrongShape (mkInstruction .JP []) = false ∧
    JP exampleCPU (mkInstruction .JP []) = .error (.indexOutOfRange, exampleCPU) ∧
    listedWrongShape (mkInstruction .JP [condOperand .Z]) = false ∧
    JP exampleCPU (mkInstruction .JP [condOperand .Z]) = .error (.operandShape, exampleCPU) :=
  ⟨rfl, rfl, rfl, rfl⟩

theorem INC_fails_iff (c : CPU) (ops : List Operand) (cb : Bool) (cy : Nat) :
    (∀ f s, INC c ⟨.INC, ops, cb, cy⟩ = .error (f, s) →
      s = c ∧ f = (if lacksOperand ⟨.INC, ops, cb, cy⟩ then .indexOutOfRange else .operandShape)) ∧
    (listedWrongShape ⟨.INC, ops, cb, cy⟩ = true →
      INC c ⟨.INC, ops, cb, cy⟩ = .error (.operandShape, c)) ∧
    ((∃ e, INC c ⟨.INC, ops, cb, cy⟩ = .error e) ↔
      (listedWrongShape ⟨.INC, ops, cb, cy⟩ = true ∨ lacksOperand ⟨.INC, ops, cb, cy⟩ = true ∨
        ∃ op ∈ resolvedOperands c ⟨.INC, ops, cb, cy⟩, op.IsCondition = true)) := by
  cases ops with
  | nil => simp [INC, listedWrongShape, lacksOperand, resolvedOperands]
  | cons op rest =>
    cases hsym : op.Symbol <;>
      simp [INC, hsym, listedWrongShape, lacksOperand, resolvedOperands, Operand.IsRegister]

theorem DEC_fails_iff (c : CPU) (ops : List Operand) (cb : Bool) (cy : Nat) :
    (∀ f s, DEC c ⟨.DEC, ops, cb, cy⟩ = .error (f, s) →
      s = c ∧ f = (if lacksOperand ⟨.DEC, ops, cb, cy⟩ then .indexOutOfRange else .operandShape)) ∧
    (listedWrongShape ⟨.DEC, ops, cb, cy⟩ = true →
      DEC c ⟨.DEC, ops, cb, cy⟩ = .error (.operandShape, c)) ∧
    ((∃ e, DEC c ⟨.DEC, ops, cb, cy⟩ = .error e) ↔
      (listedWrongShape ⟨.DEC, ops, cb, cy⟩ = true ∨ lacksOperand ⟨.DEC, ops, cb, cy⟩ = true ∨
        ∃ op ∈ resolvedOperands c ⟨.DEC, ops, cb, cy⟩, op.IsCondition = true)) := by
  cases ops with
  | nil => simp [DEC, listedWrongShape, lacksOperand, resolvedOperands]
  | cons op rest =>
    cases hsym : op.Symbol <;>
      simp [DEC, hsym, listedWrongShape, lacksOperand, resolvedOperands, Operand.IsRegister]

theorem resolve_cases (c : CPU) (op : Operand) :
    (op.IsCondition = true ∧ Resolve c op = .error .operandShape) ∨
    (op.IsCondition = false ∧ ∃ v, Resolve c op = .ok v) := by
  cases h : op.IsCondition
  · exact Or.inr ⟨rfl, resolve_ok c op h⟩
  · exact Or.inl ⟨rfl, resolve_condition c op h⟩

theorem JP_fails_iff (c : CPU) (ops : List Operand) (cb : Bool) (cy : Nat) :
    (∀ f s, JP c ⟨.JP, ops, cb, cy⟩ = .error (f, s) →
      s = c ∧ f = (if lacksOperand ⟨.JP, ops, cb, cy⟩ then .indexOutOfRange else .operandShape)) ∧
    (listedWrongShape ⟨.JP, ops, cb, cy⟩ = true →
      JP c ⟨.JP, ops, cb, cy⟩ = .error (.operandShape, c)) ∧
    ((∃ e, JP c ⟨.JP, ops, cb, cy⟩ = .error e) ↔
      (listedWrongShape ⟨.JP, ops, cb, cy⟩ = true ∨ lacksOperand ⟨.JP, ops, cb, cy⟩ = true ∨
        ∃ op ∈ resolvedOperands c ⟨.JP, ops, cb, cy⟩, op.IsCondition = true)) := by
  rcases ops with _ | ⟨op0, _ | ⟨op1, rest⟩⟩
  · simp [JP, listedWrongShape, lacksOperand, resolvedOperands]
  · rcases resolve_cases c op0 with ⟨hc, hr⟩ | ⟨hc, v, hr⟩ <;>
      simp [JP, hr, hc, listedWrongShape, lacksOperand, resolvedOperands]
  · cases h0 : op0.IsCondition
    · have hsym : ∀ cond, op0.Symbol ≠ .condition cond := by
        intro cond e
        simp [Operand.IsCondition, e] at h0
      have hJ : JP c ⟨.JP, op0 :: op1 :: rest, cb, cy⟩ = .error (.operandShape, c) := by
        cases hs : op0.Symbol with
        | condition cd => exact absurd hs (hsym cd)
        | _ => simp [JP, hs]
      simp [hJ, h0, listedWrongShape, lacksOperand, resolvedOperands]
    · obtain ⟨cond, hsym⟩ : ∃ cond, op0.Symbol = .condition cond := by
        unfold Operand.IsCondition at h0
        split at h0
        · exact ⟨_, by assumption⟩
        · simp at h0
      cases hcond : c.Registers.IsCondition cond
      · simp [JP, hsym, hcond, h0, listedWrongShape, lacksOperand, resolvedOperands]
      · rcases resolve_cases c op1 with ⟨hc, hr⟩ | ⟨hc, v, hr⟩ <;>
          simp [JP, hsym, hcond, hr, hc, h0, listedWrongShape, lacksOperand, resolvedOperands]

theorem ldMove_fails_iff (c : CPU) (dst src : Operand) :
    (∀ f, ldMove c dst src = .error f → f = .operandShape) ∧
    ((!(dst.IsData || dst.Deref) && !dst.IsRegister) = true →
      ldMove c dst src = .error .operandShape) ∧
    ((∃ f, ldMove c dst src = .error f) ↔
      ((!(dst.IsData || dst.Deref) && !dst.IsRegister) = true ∨
        ∃ op ∈ (if dst.IsData || dst.Deref then [src, dst] else [src]),
          op.IsCondition = true)) := by
  rcases resolve_cases c src with ⟨hs, hrs⟩ | ⟨hs, v, hrs⟩
  · simp [ldMove, hrs, hs]
    split <;> simp [hs]
  · cases hmem : (dst.IsData || dst.Deref)
    · cases hsym : dst.Symbol <;>
        simp [ldMove, hrs, hs, hmem, hsym, Operand.IsRegister]
    · rcases resolve_cases c dst with ⟨hd, hrd⟩ | ⟨hd, a, hrd⟩
      · simp [ldMove, hrs, hs, hmem, hrd, hd]
      · simp only [ldMove, hrs, hmem, hrd, if_true]
        split <;> simp [hs, hd]

theorem LD_fails_iff (c : CPU) (ops : List Operand) (cb : Bool) (cy : Nat) :
    (∀ f s, LD c ⟨.LD, ops, cb, cy⟩ = .error (f, s) →
      s = c ∧ f = (if lacksOperand ⟨.LD, ops, cb, cy⟩ then .indexOutOfRange else .operandShape)) ∧
    (listedWrongShape ⟨.LD, ops, cb, cy⟩ = true →
      LD c ⟨.LD, ops, cb, cy⟩ = .error (.operandShape, c)) ∧
    ((∃ e, LD c ⟨.LD, ops, cb, cy⟩ = .error e) ↔
      (listedWrongShape ⟨.LD, ops, cb, cy⟩ = true ∨ lacksOperand ⟨.LD, ops, cb, cy⟩ = true ∨
        ∃ op ∈ resolvedOperands c ⟨.LD, ops, cb, cy⟩, op.IsCondition = true)) := by
  rcases ops with _ | ⟨op0, _ | ⟨op1, _ | ⟨op2, _ | ⟨op3, rest⟩⟩⟩⟩
  · simp [LD, listedWrongShape, lacksOperand, resolvedOperands]
  · simp [LD, listedWrongShape, lacksOperand, resolvedOperands]
  · obtain ⟨h1, h2, h3⟩ := ldMove_fails_iff c op0 op1
    cases hm : ldMove c op0 op1 with
    | ok c1 =>
      have hno : ¬ ∃ f, ldMove c op0 op1 = .error f := by simp [hm]
      rw [h3] at hno
      have hl : (!(op0.IsData || op0.Deref) && !op0.IsRegister) = false := by
        cases h : (!(op0.IsData || op0.Deref) && !op0.IsRegister)
        · rfl
        · exact absurd (Or.inl h) hno
      have hr : ¬ ∃ op ∈ (if (op0.IsData || op0.Deref) = true then [op1, op0] else [op1]),
          op.IsCondition = true := fun h => hno (Or.inr h)
      simp only [LD, hm, listedWrongShape, lacksOperand, resolvedOperands, hl]
      simp only [false_or, Bool.false_eq_true, reduceCtorEq, false_implies, implies_true,
        exists_false, false_iff, true_and]
      exact hr
    | error f =>
      have hf := h1 f hm
      subst hf
      have hyes : ∃ f, ldMove c op0 op1 = .error f := ⟨_, hm⟩
      rw [h3] at hyes
      simp only [LD, hm, listedWrongShape, lacksOperand, resolvedOperands]
      refine ⟨?_, ?_, ?_⟩
      · intro f s h
        simp only [Except.error.injEq, Prod.mk.injEq] at h
        exact ⟨h.2.symm, by simp [h.1.symm]⟩
      · intro _
        trivial
      · constructor
        · intro _
          rcases hyes with h | h
          · exact Or.inl h
          · exact Or.inr (Or.inr h)
        · intro _
          exact ⟨_, rfl⟩
  · rcases resolve_cases c op2 with ⟨hc, hr⟩ | ⟨hc, v, hr⟩ <;>
      simp [LD, hr, hc, listedWrongShape, lacksOperand, resolvedOperands]
  · simp [LD, listedWrongShape, lacksOperand, resolvedOperands]

/-- C18, amended: the handler of INC, DEC, JP or LD fails exactly when the
descriptor has one of the listed wrong shapes, or is an INC, DEC or JP without
operand, or makes the handler resolve an operand whose symbol is a condition
code.  Every failure happens in the initial state (no register, flag or memory
byte is changed before it); it is an index-out-of-range panic for INC, DEC and
JP without operand and an operand-shape error otherwise, and every listed wrong
shape fails with the operand-shape error. -/
theorem handler_fails_iff (c : CPU) (ins : Instruction)
    (hm : ins.Mnemonic = .INC ∨ ins.Mnemonic = .DEC ∨ ins.Mnemonic = .JP ∨
      ins.Mnemonic = .LD) :
    (∀ f s, handlerOf c ins = .error (f, s) →
      s = c ∧ f = (if lacksOperand ins then .indexOutOfRange else .operandShape)) ∧
    (listedWrongShape ins = true → handlerOf c ins = .error (.operandShape, c)) ∧
    ((∃ e, handlerOf c ins = .error e) ↔
      (listedWrongShape ins = true ∨ lacksOperand ins = true ∨
        ∃ op ∈ resolvedOperands c ins, op.IsCondition = true)) := by
  obtain ⟨m, ops, cb, cy⟩ := ins
  simp only at hm
  rcases hm with rfl | rfl | rfl | rfl
  · exact INC_fails_iff c ops cb cy
  · exact DEC_fails_iff c ops cb cy
  · exact JP_fails_iff c ops cb cy
  · exact LD_fails_iff c ops cb cy

/-- C18, amended, at the example state: `INC 0x12` (operand 0 not a register)
is a listed wrong shape and fails with the operand-shape error in the initial
state. -/
theorem handler_fails_iff_witness :
    listedWrongShape (mkInstruction .INC [imm8Operand 0x12]) = true ∧
    handlerOf exampleCPU (mkInstruction .INC [imm8Operand 0x12]) =
      .error (.operandShape, exampleCPU) ∧
    ((∃ e, handlerOf exampleCPU (mkInstruction .LD [pairOperand .BC, imm16Operand 0x1234]) =
        .error e) ↔
      (listedWrongShape (mkInstruction .LD [pairOperand .BC, imm16Operand 0x1234]) = true ∨
        lacksOperand (mkInstruction .LD [pairOperand .BC, imm16Operand 0x1234]) = true ∨
        ∃ op ∈ resolvedOperands exampleCPU
            (mkInstruction .LD [pairOperand .BC, imm16Operand 0x1234]),
          op.IsCondition = true)) :=
  ⟨rfl,
   (handler_fails_iff exampleCPU (mkInstruction .INC [imm8Operand 0x12])
      (Or.inl rfl)).2.1 rfl,
   (handler_fails_iff exampleCPU (mkInstruction .LD [pairOperand .BC, imm16Operand 0x1234])
      (Or.inr (Or.inr (Or.inr rfl)))).2.2⟩

/-! ## Claims on IME and on `Step` -/

theorem serviceInterrupt_IME_irrelevant (c : CPU) (b : Bool) (it : Interrupt) :
    serviceInterrupt { c with IME := b } it = serviceInterrupt c it := by
  simp only [serviceInterrupt, StackPush16, Write16, Write8]

theorem handleLoop_IME_irrelevant (c : CPU) (b : Bool) (l : List Interrupt) :
    handleLoop { c with IME := b } l =
      ((handleLoop c l).1,
        if (handleLoop c l).1 = none then { (handleLoop c l).2 with IME := b }
        else (handleLoop c l).2) := by
  induction l with
  | nil => rfl
  | cons it rest ih =>
    by_cases hp : c.IF &&& it.toByte ≠ 0 ∧ c.IE &&& it.toByte ≠ 0
    · have hp2 : ({ c with IME := b } : CPU).IF &&& it.toByte ≠ 0 ∧
          ({ c with IME := b } : CPU).IE &&& it.toByte ≠ 0 := hp
      rw [handleLoop, if_pos hp2, handleLoop, if_pos hp, serviceInterrupt_IME_irrelevant]
      simp
    · have hp2 : ¬ (({ c with IME := b } : CPU).IF &&& it.toByte ≠ 0 ∧
          ({ c with IME := b } : CPU).IE &&& it.toByte ≠ 0) := hp
      rw [handleLoop, if_neg hp2, handleLoop, if_neg hp]
      exact ih

/-- C19: `HandleInterrupts` does not read IME.  On the state with IME replaced
by any value it returns the same source; when a source is serviced the final
state is the same (IME false), and when none is the final state differs only by
that IME.  A pending, enabled source is serviced, and IsHalted cleared, whatever
IME is. -/
theorem handleInterrupts_ignores_IME (c : CPU) (b : Bool) :
    (HandleInterrupts { c with IME := b }).1 = (HandleInterrupts c).1 ∧
    ((HandleInterrupts c).1 ≠ none →
      (HandleInterrupts { c with IME := b }).2 = (HandleInterrupts c).2 ∧
      (HandleInterrupts c).2.IME = false ∧ (HandleInterrupts c).2.IsHalted = false) ∧
    ((HandleInterrupts c).1 = none →
      (HandleInterrupts { c with IME := b }).2 = { (HandleInterrupts c).2 with IME := b } ∧
      (HandleInterrupts c).2 = c) ∧
    (c.IF &&& c.IE &&& 0x1F ≠ 0 → (HandleInterrupts c).1 ≠ none) := by
  have key := handleLoop_IME_irrelevant c b interrupts
  have hcases := handleLoop_cases c interrupts
  refine ⟨?_, ?_, ?_, ?_⟩
  · show (handleLoop _ interrupts).1 = (handleLoop c interrupts).1
    rw [key]
  · intro hne
    have hne2 : (handleLoop c interrupts).1 ≠ none := hne
    refine ⟨?_, ?_, ?_⟩
    · show (handleLoop _ interrupts).2 = (handleLoop c interrupts).2
      rw [key]
      simp only [hne2, if_false]
    · rcases hcases with ⟨-, hres⟩ | ⟨pre, s, post, -, -, -, hres⟩
      · exact absurd (by rw [hres]) hne2
      · show (handleLoop c interrupts).2.IME = false
        rw [hres]
        exact serviceInterrupt_IME c s
    · rcases hcases with ⟨-, hres⟩ | ⟨pre, s, post, -, -, -, hres⟩
      · exact absurd (by rw [hres]) hne2
      · show (handleLoop c interrupts).2.IsHalted = false
        rw [hres]
        exact serviceInterrupt_IsHalted c s
  · intro hnone
    have hnone2 : (handleLoop c interrupts).1 = none := hnone
    refine ⟨?_, ?_⟩
    · show (handleLoop _ interrupts).2 = { (handleLoop c interrupts).2 with IME := b }
      rw [key]
      simp only [hnone2, if_true]
    · rcases hcases with ⟨-, hres⟩ | ⟨pre, s, post, -, -, -, hres⟩
      · show (handleLoop c interrupts).2 = c
        rw [hres]
      · rw [hres] at hnone2
        simp at hnone2
  · intro hpend hnone
    rcases hcases with ⟨hall, -⟩ | ⟨pre, s, post, -, -, -, hres⟩
    · obtain ⟨i, hi⟩ := Nat.ne_zero_implies_bit_true hpend
      rw [testBit_pending] at hi
      simp only [Bool.and_eq_true, decide_eq_true_eq] at hi
      obtain ⟨⟨h1, h2⟩, h5⟩ := hi
      have hex : ∃ t : Interrupt, t.bit = i := by
        interval_cases i
        · exact ⟨.VBLANK, rfl⟩
        · exact ⟨.LCD_STAT, rfl⟩
        · exact ⟨.TIMER, rfl⟩
        · exact ⟨.SERIAL, rfl⟩
        · exact ⟨.JOYPAD, rfl⟩
      obtain ⟨t, rfl⟩ := hex
      exact hall t (mem_interrupts t) ⟨h1, h2⟩
    · have : (handleLoop c interrupts).1 = none := hnone
      rw [hres] at this
      simp at this

/-- C19 at the example state (Timer pending and enabled) with IME false: Timer
is serviced, IsHalted is false, and the final state is the one reached with IME
true. -/
theorem handleInterrupts_ignores_IME_witness :
    (HandleInterrupts { exampleCPU with IME := false }).1 = some .TIMER ∧
    (HandleInterrupts { exampleCPU with IME := false }).2.IsHalted = false ∧
    (HandleInterrupts exampleCPU).1 ≠ none ∧
    ((HandleInterrupts { exampleCPU with IME := false }).2 = (HandleInterrupts exampleCPU).2 ∧
      (HandleInterrupts exampleCPU).2.IME = false ∧
      (HandleInterrupts exampleCPU).2.IsHalted = false) :=
  ⟨by decide, by decide, by decide,
   (handleInterrupts_ignores_IME exampleCPU false).2.1 (by decide)⟩

theorem fetch8_fst (c : CPU) : (Fetch8 c).1 = Read8 c c.Registers.PC := rfl

theorem fetch8_snd (c : CPU) : (Fetch8 c).2 = advancePC c 1 := rfl

theorem fetch8_twice_fst (c : CPU) :
    (Fetch8 (Fetch8 c).2).1 = Read8 c (c.Registers.PC + 1) := by
  simp only [Fetch8, Read8]
  congr 2
  omega

theorem fetch8_twice_snd (c : CPU) : (Fetch8 (Fetch8 c).2).2 = advancePC c 2 := by
  simp only [Fetch8, advancePC]
  congr 2
  omega

/-- C20: `Step` follows the CB-prefix protocol.  When the byte at PC is 0xCB
the opcode is the byte at PC+1, it is looked up with cbPrefixed = true and the
instruction runs in the state with PC advanced by 2; otherwise the byte at PC is
looked up with cbPrefixed = false and the instruction runs with PC advanced by
1.  When the lookup yields no descriptor `Step` fails with "unknown
instruction" whatever the function called for `Process` is: it is not
invoked. -/
theorem step_cb_protocol (FromOPCode : Nat → Bool → Option Instruction) (c : CPU) :
    (Read8 c c.Registers.PC = 0xCB →
      (∀ ins, FromOPCode (Read8 c (c.Registers.PC + 1)) true = some ins →
        Step FromOPCode c =
          (match Process (advancePC c 2) ins with
            | .ok r => .ok r.2
            | .error e => .error e)) ∧
      (FromOPCode (Read8 c (c.Registers.PC + 1)) true = none →
        ∀ process, stepWith process FromOPCode c =
          .error (.unknownInstruction, advancePC c 2))) ∧
    (Read8 c c.Registers.PC ≠ 0xCB →
      (∀ ins, FromOPCode (Read8 c c.Registers.PC) false = some ins →
        Step FromOPCode c =
          (match Process (advancePC c 1) ins with
            | .ok r => .ok r.2
            | .error e => .error e)) ∧
      (FromOPCode (Read8 c c.Registers.PC) false = none →
        ∀ process, stepWith process FromOPCode c =
          .error (.unknownInstruction, advancePC c 1))) := by
  constructor
  · intro hcb
    have h1 : decide ((Fetch8 c).1 = 0xCB) = true := by
      rw [fetch8_fst, hcb]
      rfl
    constructor
    · intro ins hlook
      simp only [Step, stepWith, h1, if_true, fetch8_twice_fst, fetch8_twice_snd, hlook]
    · intro hlook process
      simp only [stepWith, h1, if_true, fetch8_twice_fst, fetch8_twice_snd, hlook]
  · intro hcb
    have h1 : decide (Read8 c c.Registers.PC = 0xCB) = false := decide_eq_false hcb
    constructor
    · intro ins hlook
      simp only [Step, stepWith, fetch8_fst, fetch8_snd, h1, Bool.false_eq_true, if_false, hlook]
    · intro hlook process
      simp only [stepWith, fetch8_fst, fetch8_snd, h1, Bool.false_eq_true, if_false, hlook]

/-- C20 on the example table: at the bytes CB 37 the descriptor of CB 0x37 is
run with PC = 0x0152 (here it reaches the default case of `Process`); at the
byte 0x00 NOP is run with PC = 0x0151; with NOP at CB 0x00 not registered, the
bytes CB 00 give "unknown instruction" with PC = 0x0152. -/
theorem step_cb_protocol_witness :
    (Read8 cbCPU cbCPU.Registers.PC = 0xCB ∧
      Step exampleTable cbCPU =
        (match Process (advancePC cbCPU 2)
            { Mnemonic := .OTHER 0, Operands := [regOperand .A], CBPrefixed := true,
              Cycles := 8 } with
          | .ok r => .ok r.2
          | .error e => .error e) ∧
      (advancePC cbCPU 2).Registers.PC = 0x0152) ∧
    (Read8 exampleCPU exampleCPU.Registers.PC ≠ 0xCB ∧
      Step exampleTable exampleCPU =
        (match Process (advancePC exampleCPU 1) (mkInstruction .NOP []) with
          | .ok r => .ok r.2
          | .error e => .error e) ∧
      Step exampleTable exampleCPU = .ok (advancePC exampleCPU 1) ∧
      (advancePC exampleCPU 1).Registers.PC = 0x0151) ∧
    (∀ process, stepWith process (fun _ _ => none) cbCPU =
      .error (.unknownInstruction, advancePC cbCPU 2)) :=
  ⟨⟨by decide,
    ((step_cb_protocol exampleTable cbCPU).1 (by decide)).1 _ rfl,
    by decide⟩,
   ⟨by decide,
    ((step_cb_protocol exampleTable exampleCPU).2 (by decide)).1 _ rfl,
    rfl, by decide⟩,
   ((step_cb_protocol (fun _ _ => none) cbCPU).1 (by decide)).2 rfl⟩

end GoDmg
